import Mathlib

set_option maxRecDepth 100000
set_option exponentiation.threshold 5000
set_option maxHeartbeats 2000000

/-!
Verification model of the intent-controller / calculator pipeline
(`intent_controller.py`).  Python strings are Lean `String`s, Python floats
are modelled as exact rationals (`ℚ`), Python dicts of extracted slots are
association lists in insertion order, and the regular expressions of the
pattern table are embedded as abstract syntax trees executed by a
backtracking matcher that models `re.search` (leftmost match, alternation
tried left to right, greedy quantifiers prefer longer, lazy prefer shorter).
Code that can raise in Python (tuple indexing on match groups) is modelled
in the `Except` monad; everything else is total, as in the source.
-/

namespace IntentControllerModel

/-! ### Python string primitives -/

/-- Python whitespace (the ASCII characters `str.strip`, `str.split` and the
regex class `\s` treat as whitespace). -/
def pyWs (c : Char) : Bool :=
  c == ' ' || c == '\t' || c == '\n' || c == '\r' || c == '\x0b' || c == '\x0c'

/-- Python `str.lower` (ASCII inputs). -/
def pyLower (s : String) : String := String.mk (s.data.map Char.toLower)

/-- Python `str.strip` with no arguments. -/
def pyStrip (s : String) : String :=
  String.mk (((s.data.dropWhile pyWs).reverse.dropWhile pyWs).reverse)

/-- The normalization `user_input.lower().strip()` done by `parse_intent`. -/
def pyNormalize (s : String) : String := pyStrip (pyLower s)

def splitWsAux : List Char → List Char → List String
  | [], acc => if acc.isEmpty then [] else [String.mk acc.reverse]
  | c :: rest, acc =>
      if pyWs c then
        (if acc.isEmpty then [] else [String.mk acc.reverse]) ++ splitWsAux rest []
      else splitWsAux rest (c :: acc)

/-- Python `str.split()` with no arguments: split on whitespace runs,
dropping empty pieces. -/
def pySplitWords (s : String) : List String := splitWsAux s.data []

/-- Python `s.startswith(pre)`. -/
def pyStartsWith (s pre : String) : Bool := pre.data.isPrefixOf s.data

def containsSubAux (pat : List Char) : List Char → Bool
  | [] => pat.isPrefixOf []
  | c :: rest => pat.isPrefixOf (c :: rest) || containsSubAux pat rest

/-- Python substring test `pat in s`. -/
def strContains (s pat : String) : Bool := containsSubAux pat.data s.data

/-! ### Python float model: exact rationals -/

def digitsToNat (cs : List Char) : Nat :=
  cs.foldl (fun a c => a * 10 + (c.toNat - '0'.toNat)) 0

def spanDigits (cs : List Char) : List Char × List Char :=
  (cs.takeWhile Char.isDigit, cs.dropWhile Char.isDigit)

def parseSign : List Char → (Bool × List Char)
  | '-' :: rest => (true, rest)
  | '+' :: rest => (false, rest)
  | cs => (false, cs)

def parseExpPart : List Char → Option ℤ
  | [] => some 0
  | e :: rest =>
      if e = 'e' ∨ e = 'E' then
        let sr := parseSign rest
        let dr := spanDigits sr.2
        if dr.1 = [] ∨ dr.2 ≠ [] then none
        else some (if sr.1 then -(digitsToNat dr.1 : ℤ) else (digitsToNat dr.1 : ℤ))
      else none

/-- Modelled from CPython `float(str)`, restricted to the plain decimal forms
this program produces and consumes: optional surrounding whitespace, optional
sign, integer and/or fractional digits, optional decimal exponent.  The
special forms `inf`/`nan` and digit-separating underscores are not modelled.
The value is the exact rational denoted by the literal. -/
def pyFloat? (s : String) : Option ℚ :=
  let cs := (pyStrip s).data
  let sg := parseSign cs
  let ipr := spanDigits sg.2
  let core : Option (ℚ × List Char) :=
    match ipr.2 with
    | '.' :: cs3 =>
        let fpr := spanDigits cs3
        if ipr.1 = [] ∧ fpr.1 = [] then none
        else some ((digitsToNat ipr.1 : ℚ) + (digitsToNat fpr.1 : ℚ) / (10 : ℚ) ^ fpr.1.length, fpr.2)
    | _ => if ipr.1 = [] then none else some ((digitsToNat ipr.1 : ℚ), ipr.2)
  match core with
  | none => none
  | some vr =>
      match parseExpPart vr.2 with
      | none => none
      | some e =>
          let m := vr.1 * (10 : ℚ) ^ e
          some (if sg.1 then -m else m)

def countFacAux : Nat → Nat → Nat → Nat
  | 0, _, _ => 0
  | fuel + 1, p, n => if 2 ≤ p ∧ n ≠ 0 ∧ n % p = 0 then countFacAux fuel p (n / p) + 1 else 0

def countFac (p n : Nat) : Nat := countFacAux n p n

def natDigitsPad (k n : Nat) : String :=
  let s := toString n
  String.mk (List.replicate (k - s.length) '0') ++ s

def stripRightZeros (s : String) : String :=
  let t := String.mk (s.data.reverse.dropWhile (fun c => c == '0')).reverse
  if t = "" then "0" else t

/-- Modelled from CPython `str(float)` for values with a finite decimal
expansion in the non-exponent display range: shortest decimal digits, always
keeping at least one fractional digit (so `15` renders as `"15.0"`). -/
def pyFloatRepr (q : ℚ) : String :=
  let sign := if q < 0 then "-" else ""
  let n := q.num.natAbs
  let d := q.den
  let e2 := countFac 2 d
  let e5 := countFac 5 d
  if 2 ^ e2 * 5 ^ e5 = d then
    let k := max e2 e5
    let scaled := n * 10 ^ k / d
    let ip := scaled / 10 ^ k
    let fp := scaled % 10 ^ k
    let frac := if k = 0 then "0" else stripRightZeros (natDigitsPad k fp)
    sign ++ toString ip ++ "." ++ frac
  else sign ++ toString n ++ "/" ++ toString d

/-- Round-half-even on rationals, the tie rule of Python `round`. -/
def roundHalfEven (x : ℚ) : ℤ :=
  let f := ⌊x⌋
  let r := x - (f : ℚ)
  if r < 1 / 2 then f
  else if (1 : ℚ) / 2 < r then f + 1
  else if f % 2 = 0 then f else f + 1

/-- Python `round(x, 6)` in the rational model. -/
def roundTo6 (q : ℚ) : ℚ := (roundHalfEven (q * 1000000) : ℚ) / 1000000

/-- Largest finite IEEE-754 double, the overflow threshold modelled for
Python float exponentiation. -/
def dblMax : ℚ := (((2 ^ 53 - 1) * 2 ^ 971 : ℕ) : ℚ)

/-! ### Regular-expression engine

A model of the fragment of Python `re` used by the source: literals,
alternation, character classes, greedy and lazy counted repetition, capture
groups, word boundary and end anchor. -/

inductive CharClass where
  | any
  | ws
  | digit
  | ranges (rs : List (Char × Char)) (extra : List Char)
deriving DecidableEq

def isWsChar (c : Char) : Bool := pyWs c

def memClass : CharClass → Char → Bool
  | .any, c => c != '\n'
  | .ws, c => isWsChar c
  | .digit, c => c.isDigit
  | .ranges rs extra, c => rs.any (fun p => decide (p.1 ≤ c) && decide (c ≤ p.2)) || extra.contains c

inductive RE where
  | eps
  | lit (cs : List Char)
  | cls (c : CharClass)
  | seq (a b : RE)
  | alt (a b : RE)
  | grp (i : Nat) (r : RE)
  | rep (lo : Nat) (hi : Option Nat) (greedy : Bool) (r : RE)
  | bnd
  | eol
deriving DecidableEq

def reCat (rs : List RE) : RE := rs.foldr RE.seq RE.eps

def reLit (s : String) : RE := RE.lit s.data

def reAlts : List String → RE
  | [] => RE.eps
  | [w] => reLit w
  | w :: rest => RE.alt (reLit w) (reAlts rest)

def reOpt (r : RE) : RE := RE.rep 0 (some 1) true r
def rePlus (r : RE) : RE := RE.rep 1 none true r
def rePlusLazy (r : RE) : RE := RE.rep 1 none false r
def reStar (r : RE) : RE := RE.rep 0 none true r
def wsPlus : RE := rePlus (RE.cls .ws)
def dotPlusLazy : RE := rePlusLazy (RE.cls .any)
def dotPlus : RE := rePlus (RE.cls .any)

def numGroups : RE → Nat
  | .eps | .lit _ | .cls _ | .bnd | .eol => 0
  | .seq a b => max (numGroups a) (numGroups b)
  | .alt a b => max (numGroups a) (numGroups b)
  | .grp i r => max (i + 1) (numGroups r)
  | .rep _ _ _ r => numGroups r

def reSize : RE → Nat
  | .eps | .lit _ | .cls _ | .bnd | .eol => 1
  | .seq a b => reSize a + reSize b + 1
  | .alt a b => reSize a + reSize b + 1
  | .grp _ r => reSize r + 1
  | .rep _ _ _ r => reSize r + 2

def isWordChar (c : Char) : Bool := c.isAlphanum || c == '_'

def boundaryAt (inp : List Char) (pos : Nat) : Bool :=
  let curW := match inp.get? pos with
    | some c => isWordChar c
    | none => false
  let prevW := if pos = 0 then false else
    match inp.get? (pos - 1) with
    | some c => isWordChar c
    | none => false
  prevW != curW

def sliceStr (inp : List Char) (a b : Nat) : String := String.mk ((inp.drop a).take (b - a))

/-- Capture groups of one match attempt: `none` for a group that did not
participate, mirroring Python `match.groups()`. -/
abbrev Caps := List (Option String)

/-- Backtracking matcher.  At position `pos` with capture state `caps`,
returns the list of all ways the expression can match a prefix of the
remaining input, as pairs (end position, captures), in the engine's
preference order; the head is the match Python would report.  `fuel`
strictly decreases on every recursive call and is sized generously by
`reFuel` below. -/
def reMat (inp : List Char) : Nat → RE → Nat → Caps → List (Nat × Caps)
  | 0, _, _, _ => []
  | fuel + 1, r, pos, caps =>
    match r with
    | .eps => [(pos, caps)]
    | .lit cs => if (inp.drop pos).take cs.length = cs then [(pos + cs.length, caps)] else []
    | .cls c =>
        match inp.get? pos with
        | some ch => if memClass c ch then [(pos + 1, caps)] else []
        | none => []
    | .seq a b => (reMat inp fuel a pos caps).flatMap (fun pc => reMat inp fuel b pc.1 pc.2)
    | .alt a b => reMat inp fuel a pos caps ++ reMat inp fuel b pos caps
    | .grp i r0 => (reMat inp fuel r0 pos caps).map
        (fun pc => (pc.1, pc.2.set i (some (sliceStr inp pos pc.1))))
    | .rep lo hi g r0 =>
        match lo with
        | lo0 + 1 => (reMat inp fuel r0 pos caps).flatMap
            (fun pc => reMat inp fuel (.rep lo0 (hi.map (fun h => h - 1)) g r0) pc.1 pc.2)
        | 0 =>
          match hi with
          | some 0 => [(pos, caps)]
          | _ =>
            let more := (reMat inp fuel r0 pos caps).flatMap (fun pc =>
              if pc.1 = pos then [] else
                reMat inp fuel (.rep 0 (hi.map (fun h => h - 1)) g r0) pc.1 pc.2)
            if g then more ++ [(pos, caps)] else (pos, caps) :: more
    | .bnd => if boundaryAt inp pos then [(pos, caps)] else []
    | .eol => if pos = inp.length then [(pos, caps)] else []

def initCaps (r : RE) : Caps := List.replicate (numGroups r) none

def reFuel (r : RE) (inp : List Char) : Nat :=
  (reSize r + 2) * (inp.length + 2) + 100

def searchFrom (inp : List Char) (fuel : Nat) (r : RE) : Nat → Nat → Option Caps
  | 0, _ => none
  | k + 1, pos =>
      match reMat inp fuel r pos (initCaps r) with
      | pc :: _ => some pc.2
      | [] => searchFrom inp fuel r k (pos + 1)

/-- Modelled from Python `re.search`: try each start position left to right;
the first position admitting a match wins, and the backtracking engine's
preference order fixes the captures. -/
def reSearch (r : RE) (s : String) : Option Caps :=
  searchFrom s.data (reFuel r s.data) r (s.data.length + 1) 0

def findAllFrom (inp : List Char) (fuel : Nat) (r : RE) : Nat → Nat → List String
  | 0, _ => []
  | k + 1, pos =>
      if inp.length < pos then [] else
      match reMat inp fuel r pos (initCaps r) with
      | pc :: _ =>
          sliceStr inp pos pc.1 ::
            findAllFrom inp fuel r k (if pos < pc.1 then pc.1 else pos + 1)
      | [] => findAllFrom inp fuel r k (pos + 1)

/-- Modelled from Python `re.findall` for patterns with no capture group:
the list of non-overlapping matches, left to right. -/
def reFindAll (r : RE) (s : String) : List String :=
  findAllFrom s.data (reFuel r s.data) r (s.data.length + 1) 0

/-! ### The static tables of `IntentController.__init__`

Each regular expression literal of `self.intent_patterns` is transcribed
into the `RE` syntax; groups are numbered 0-based in order of the opening
parentheses of the pattern. -/

def wsChars : List Char := [' ', '\t', '\n', '\r', '\x0b', '\x0c']

def clsAlphaWs : CharClass := .ranges [('a', 'z'), ('A', 'Z')] wsChars
def clsAlpha : CharClass := .ranges [('a', 'z'), ('A', 'Z')] []
def clsUpper : CharClass := .ranges [('A', 'Z')] []
def clsLower : CharClass := .ranges [('a', 'z')] []
def clsEmailLocal : CharClass := .ranges [('A', 'Z'), ('a', 'z'), ('0', '9')] ['.', '_', '%', '+', '-']
def clsEmailDomain : CharClass := .ranges [('A', 'Z'), ('a', 'z'), ('0', '9')] ['.', '-']
def clsTld : CharClass := .ranges [('A', 'Z'), ('a', 'z')] ['|']

def repRange (lo hi : Nat) (r : RE) : RE := RE.rep lo (some hi) true r
def repExact (n : Nat) (r : RE) : RE := RE.rep n (some n) true r
def optWord (w : String) : RE := reOpt (reCat [reLit w, wsPlus])
def tailOpt (kw : String) (i : Nat) : RE := reOpt (reCat [wsPlus, reLit kw, wsPlus, RE.grp i dotPlus])
def wsOrEnd : RE := RE.alt (RE.cls .ws) RE.eol

def patternsCalculate : List RE :=
  [ reCat [reAlts ["calculate", "compute", "add", "subtract", "multiply", "divide"], wsPlus,
      RE.grp 0 dotPlusLazy, wsPlus,
      reAlts ["plus", "minus", "times", "divided by", "multiply", "divide"], wsPlus,
      RE.grp 1 dotPlus],
    reCat [reAlts ["what is", "what\x27s"], wsPlus, RE.grp 0 dotPlusLazy, wsPlus,
      reAlts ["plus", "minus", "times", "divided by"], wsPlus, RE.grp 1 dotPlus],
    reCat [reAlts ["add", "subtract", "multiply", "divide"], wsPlus, RE.grp 0 dotPlusLazy, wsPlus,
      reAlts ["and", "to", "by"], wsPlus, RE.grp 1 dotPlus],
    reCat [reAlts ["sum", "total", "result"], wsPlus, reLit "of", wsPlus, RE.grp 0 dotPlusLazy,
      wsPlus, reAlts ["and", "plus"], wsPlus, RE.grp 1 dotPlus],
    reCat [reAlts ["calculate", "compute"], wsPlus, RE.grp 0 dotPlusLazy, wsPlus,
      reAlts ["and", "with"], wsPlus, RE.grp 1 dotPlus],
    reCat [reAlts ["math", "mathematics", "arithmetic"], wsPlus, reAlts ["with", "using"], wsPlus,
      RE.grp 0 dotPlusLazy, wsPlus, reAlts ["and", "plus", "minus", "times", "divided by"],
      wsPlus, RE.grp 1 dotPlus],
    reCat [reAlts ["power", "exponent"], wsPlus, RE.grp 0 dotPlusLazy, wsPlus,
      reAlts ["to", "raised to"], wsPlus, RE.grp 1 dotPlus],
    reCat [reAlts ["square root", "sqrt"], wsPlus, reLit "of", wsPlus, RE.grp 0 dotPlus],
    reCat [reAlts ["root", "radical"], wsPlus, reLit "of", wsPlus, RE.grp 0 dotPlus] ]

def patternsWeather : List RE :=
  [ reCat [reAlts ["weather", "temperature", "forecast"], wsPlus, optWord "in", RE.grp 0 dotPlus],
    reCat [reAlts ["what\x27s", "what is"], wsPlus, reLit "the", wsPlus, reLit "weather", wsPlus,
      optWord "like", optWord "in", RE.grp 0 dotPlus],
    reCat [reAlts ["how\x27s", "how is"], wsPlus, reLit "the", wsPlus, reLit "weather", wsPlus,
      optWord "in", RE.grp 0 dotPlus],
    reCat [reAlts ["weather", "temperature"], wsPlus, reAlts ["for", "in"], wsPlus,
      RE.grp 0 dotPlus],
    reCat [reAlts ["forecast", "weather forecast"], wsPlus, reAlts ["for", "in"], wsPlus,
      RE.grp 0 dotPlus],
    reCat [reAlts ["is it", "will it"], wsPlus, reAlts ["rain", "snow", "sunny", "cloudy"],
      wsPlus, optWord "in", RE.grp 0 dotPlus] ]

def flightCore : RE :=
  reCat [optWord "from", RE.grp 0 dotPlusLazy, wsPlus, optWord "to", RE.grp 1 dotPlusLazy,
    tailOpt "on" 2]

def patternsBookFlight : List RE :=
  [ reCat [reAlts ["book", "reserve", "schedule"], wsPlus, optWord "a", reLit "flight", wsPlus,
      flightCore],
    reCat [reAlts ["fly", "travel", "go"], wsPlus, flightCore],
    reCat [reAlts ["flight", "ticket"], wsPlus, flightCore],
    reCat [reAlts ["i want to", "i need to", "can you"], wsPlus, reAlts ["fly", "travel", "go"],
      wsPlus, flightCore],
    reCat [reAlts ["book", "reserve"], wsPlus, optWord "a", reAlts ["ticket", "seat"], wsPlus,
      flightCore],
    reCat [optWord "from", RE.grp 0 dotPlusLazy, wsPlus, optWord "to", RE.grp 1 dotPlusLazy,
      reOpt (reCat [wsPlus, reLit "on", wsPlus, RE.grp 2 dotPlus]), wsPlus,
      reAlts ["flight", "ticket", "travel"]] ]

def patternsSendEmail : List RE :=
  [ reCat [reAlts ["send", "write", "compose"], wsPlus, optWord "an", reLit "email", wsPlus,
      optWord "to", RE.grp 0 dotPlusLazy, tailOpt "about" 1],
    reCat [reAlts ["email", "mail"], wsPlus, RE.grp 0 dotPlusLazy, tailOpt "regarding" 1],
    reCat [reAlts ["send", "write"], wsPlus, optWord "a", reLit "message", wsPlus, optWord "to",
      RE.grp 0 dotPlusLazy, tailOpt "about" 1],
    reCat [reAlts ["contact", "reach out to"], wsPlus, RE.grp 0 dotPlusLazy, tailOpt "about" 1],
    reCat [reAlts ["i want to", "i need to"], wsPlus, reAlts ["send", "write"], wsPlus,
      optWord "an", reLit "email", wsPlus, optWord "to", RE.grp 0 dotPlusLazy,
      tailOpt "about" 1] ]

def patternsSearch : List RE :=
  [ reCat [reAlts ["search", "find", "look up"], wsPlus, RE.grp 0 dotPlus],
    reCat [reAlts ["what is", "what\x27s"], wsPlus, RE.grp 0 dotPlus],
    reCat [reAlts ["tell me about", "information about"], wsPlus, RE.grp 0 dotPlus],
    reCat [reAlts ["i want to know", "i need to know"], wsPlus, RE.grp 0 dotPlus],
    reCat [reAlts ["can you tell me", "do you know"], wsPlus, RE.grp 0 dotPlus],
    reCat [reAlts ["help me find", "show me"], wsPlus, RE.grp 0 dotPlus] ]

def patternsScheduleMeeting : List RE :=
  [ reCat [reAlts ["schedule", "book", "arrange"], wsPlus, optWord "a", reLit "meeting", wsPlus,
      optWord "with", RE.grp 0 dotPlusLazy, tailOpt "on" 1],
    reCat [reAlts ["meet", "meeting"], wsPlus, optWord "with", RE.grp 0 dotPlusLazy,
      tailOpt "on" 1],
    reCat [reAlts ["set up", "organize"], wsPlus, optWord "a", reLit "meeting", wsPlus,
      optWord "with", RE.grp 0 dotPlusLazy, tailOpt "on" 1],
    reCat [reAlts ["i want to", "i need to"], wsPlus, reAlts ["meet", "schedule"], wsPlus,
      optWord "with", RE.grp 0 dotPlusLazy, tailOpt "on" 1],
    reCat [reAlts ["appointment", "call"], wsPlus, optWord "with", RE.grp 0 dotPlusLazy,
      tailOpt "on" 1] ]

/-- `self.intent_patterns`, in dict insertion (= iteration) order. -/
def intentPatterns : List (String × List RE) :=
  [ ("calculate", patternsCalculate),
    ("weather", patternsWeather),
    ("book_flight", patternsBookFlight),
    ("send_email", patternsSendEmail),
    ("search", patternsSearch),
    ("schedule_meeting", patternsScheduleMeeting) ]

/-- `self.intent_keywords`, in dict insertion order. -/
def intentKeywords : List (String × List String) :=
  [ ("calculate", ["calculate", "compute", "add", "subtract", "multiply", "divide", "math",
      "sum", "total", "plus", "minus", "times"]),
    ("weather", ["weather", "temperature", "forecast", "rain", "snow", "sunny", "cloudy",
      "hot", "cold"]),
    ("book_flight", ["flight", "fly", "travel", "ticket", "airline", "airport", "from", "to",
      "destination", "origin"]),
    ("send_email", ["email", "mail", "send", "message", "contact", "recipient", "inbox"]),
    ("search", ["search", "find", "look", "what", "tell", "information", "know", "help"]),
    ("schedule_meeting", ["meeting", "schedule", "appointment", "call", "meet", "calendar",
      "book"]) ]

/-- `self.required_fields`. -/
def requiredFields : List (String × List String) :=
  [ ("calculate", ["operation", "numbers"]),
    ("weather", ["location"]),
    ("book_flight", ["origin", "destination", "date"]),
    ("send_email", ["recipient", "subject", "message"]),
    ("search", ["query"]),
    ("schedule_meeting", ["participants", "date", "duration"]) ]

/-- `self.api_endpoints`. -/
def apiEndpoints : List (String × String) :=
  [ ("calculate", "calculator_api"),
    ("weather", "weather_api"),
    ("book_flight", "flight_booking_api"),
    ("send_email", "email_api"),
    ("search", "search_api"),
    ("schedule_meeting", "calendar_api") ]

/-- The decimal-number pattern used by all `re.findall(r"\d+(?:\.\d+)?", ...)`
calls. -/
def numPat : RE := reCat [rePlus (RE.cls .digit), reOpt (reCat [reLit ".", rePlus (RE.cls .digit)])]

/-- Regexes used only by the keyword-mode slot extractor. -/
def locPat1 : RE :=
  reCat [reAlts ["in", "at", "for"], wsPlus, RE.grp 0 (rePlusLazy (RE.cls clsAlphaWs)), wsOrEnd]
def locPat2 : RE :=
  reCat [reLit "weather", wsPlus, reAlts ["in", "at", "for"], wsPlus,
    RE.grp 0 (rePlusLazy (RE.cls clsAlphaWs)), wsOrEnd]
def capitalizedPat : RE :=
  reCat [RE.bnd, RE.cls clsUpper, rePlus (RE.cls clsLower),
    reStar (reCat [wsPlus, RE.cls clsUpper, rePlus (RE.cls clsLower)]), RE.bnd]
def fromToPat : RE :=
  reCat [reAlts ["from", "departing"], wsPlus, RE.grp 0 (rePlusLazy (RE.cls clsAlphaWs)), wsPlus,
    reAlts ["to", "arriving at"], wsPlus, RE.grp 1 (rePlusLazy (RE.cls clsAlphaWs)), wsOrEnd]
def datePat1 : RE :=
  reCat [reAlts ["on", "date", "when"], wsPlus,
    RE.grp 0 (reCat [rePlus (RE.cls clsAlpha), wsPlus, repRange 1 2 (RE.cls .digit),
      reOpt (reLit ","), wsPlus, repExact 4 (RE.cls .digit)])]
def datePat2 : RE :=
  reCat [reAlts ["on", "date", "when"], wsPlus,
    RE.grp 0 (reCat [repRange 1 2 (RE.cls .digit), reLit "/", repRange 1 2 (RE.cls .digit),
      reLit "/", repExact 4 (RE.cls .digit)])]
def datePat3 : RE :=
  reCat [reAlts ["on", "date", "when"], wsPlus,
    RE.grp 0 (reCat [repRange 1 2 (RE.cls .digit), reLit "-", repRange 1 2 (RE.cls .digit),
      reLit "-", repExact 4 (RE.cls .digit)])]
def datePats : List RE := [datePat1, datePat2, datePat3]
def emailAddrPat : RE :=
  reCat [RE.bnd, rePlus (RE.cls clsEmailLocal), reLit "@", rePlus (RE.cls clsEmailDomain),
    reLit ".", RE.rep 2 none true (RE.cls clsTld), RE.bnd]
def subjectPat : RE :=
  reCat [reAlts ["about", "regarding", "subject"], wsPlus,
    RE.grp 0 (rePlusLazy (RE.cls clsAlphaWs)), wsOrEnd]
def withPat : RE :=
  reCat [reAlts ["with", "meeting with"], wsPlus, RE.grp 0 (rePlusLazy (RE.cls clsAlphaWs)),
    wsOrEnd]

/-! ### Slot values and extraction -/

/-- A slot value: the source stores either a string or a list of number
strings in `extracted_info`. -/
inductive Value where
  | str (s : String)
  | list (l : List String)
deriving DecidableEq, Repr

/-- `extracted_info`: a Python dict in insertion order (no extractor writes
the same key twice). -/
abbrev SlotMap := List (String × Value)

def lookupSlot? (m : SlotMap) (k : String) : Option Value :=
  (m.find? (fun p => p.1 == k)).map (fun p => p.2)

/-- Python truthiness of a slot value (`not extracted_info[field]`). -/
def pyFalsy : Value → Bool
  | .str s => s == ""
  | .list l => l.isEmpty

/-- Python truthiness of an optional match group. -/
def pyTruthyOptStr : Option String → Bool
  | none => false
  | some s => s != ""

/-- Python `str` of a slot value as an f-string would render it. -/
def pyListRepr (l : List String) : String :=
  "[" ++ String.intercalate ", " (l.map (fun x => "\x27" ++ x ++ "\x27")) ++ "]"

def showValue : Value → String
  | .str s => s
  | .list l => pyListRepr l

/-- `IntentController._detect_operation`. -/
def detectOperation (text : String) : String :=
  let t := pyLower text
  if strContains t "plus" || strContains t "+" then "add"
  else if strContains t "minus" || strContains t "-" then "subtract"
  else if strContains t "times" || strContains t "*" || strContains t "multiply" then "multiply"
  else if strContains t "divide" || strContains t "/" || strContains t "divided by" then "divide"
  else if strContains t "power" || strContains t "exponent" || strContains t "raised to" ||
    strContains t "^" then "power"
  else if strContains t "square root" || strContains t "sqrt" || strContains t "root" ||
    strContains t "radical" then "sqrt"
  else "add"

/-- `IntentController._parse_calculation`. -/
def parseCalculation (text : String) : SlotMap :=
  let operation :=
    if strContains text "plus" || strContains text "+" then "add"
    else if strContains text "minus" || strContains text "-" then "subtract"
    else if strContains text "times" || strContains text "*" || strContains text "multiply" then
      "multiply"
    else if strContains text "divide" || strContains text "/" then "divide"
    else "add"
  [("operation", Value.str operation), ("numbers", Value.list (reFindAll numPat text))]

/-- Python tuple indexing `groups[i]`: raises `IndexError` when out of
range. -/
def pyIndex (g : Caps) (i : Nat) : Except String (Option String) :=
  if h : i < g.length then .ok (g.get ⟨i, h⟩)
  else .error "IndexError: tuple index out of range"

/-- `IntentController._extract_info_from_match`.  `groups` is the match's
group tuple; indexing that could raise in Python is in `Except`. -/
def extractInfoFromMatch (intent : String) (groups : Caps) (u : String) :
    Except String SlotMap :=
  if intent = "calculate" then do
    let cond ←
      if 2 ≤ groups.length then do
        let g1 ← pyIndex groups 1
        pure (pyTruthyOptStr g1)
      else pure false
    if cond then
      let numbers := groups.foldl (fun acc g =>
        if pyTruthyOptStr g then acc ++ reFindAll numPat (pyStrip (g.getD "")) else acc) []
      pure [("operation", Value.str (detectOperation u)), ("numbers", Value.list numbers)]
    else do
      let g0 ← pyIndex groups 0
      let text := if pyTruthyOptStr g0 then g0.getD "" else ""
      if strContains (pyLower u) "square root" || strContains (pyLower u) "sqrt" then
        pure [("operation", Value.str "sqrt"), ("numbers", Value.list (reFindAll numPat text))]
      else
        pure (parseCalculation text)
  else if intent = "weather" then do
    let g0 ← pyIndex groups 0
    pure [("location", Value.str (if pyTruthyOptStr g0 then pyStrip (g0.getD "") else ""))]
  else if intent = "book_flight" then
    if 3 ≤ groups.length then do
      let g0 ← pyIndex groups 0
      let g1 ← pyIndex groups 1
      let g2 ← pyIndex groups 2
      pure [("origin", Value.str (if pyTruthyOptStr g0 then pyStrip (g0.getD "") else "")),
            ("destination", Value.str (if pyTruthyOptStr g1 then pyStrip (g1.getD "") else "")),
            ("date", Value.str (if pyTruthyOptStr g2 then pyStrip (g2.getD "") else ""))]
    else if 2 ≤ groups.length then do
      let g0 ← pyIndex groups 0
      let g1 ← pyIndex groups 1
      pure [("origin", Value.str (if pyTruthyOptStr g0 then pyStrip (g0.getD "") else "")),
            ("destination", Value.str (if pyTruthyOptStr g1 then pyStrip (g1.getD "") else ""))]
    else pure []
  else if intent = "send_email" then do
    let g0 ← pyIndex groups 0
    let g1 ← pyIndex groups 1
    pure [("recipient", Value.str (if pyTruthyOptStr g0 then pyStrip (g0.getD "") else "")),
          ("subject", Value.str (if pyTruthyOptStr g1 then pyStrip (g1.getD "") else ""))]
  else if intent = "search" then do
    let g0 ← pyIndex groups 0
    pure [("query", Value.str (if pyTruthyOptStr g0 then pyStrip (g0.getD "") else ""))]
  else if intent = "schedule_meeting" then do
    let g0 ← pyIndex groups 0
    let g1 ← pyIndex groups 1
    pure [("participants", Value.str (if pyTruthyOptStr g0 then pyStrip (g0.getD "") else "")),
          ("date", Value.str (if pyTruthyOptStr g1 then pyStrip (g1.getD "") else ""))]
  else pure []

/-! ### Keyword-phase detection and extraction -/

/-- The per-intent scores of `_detect_intent_by_keywords`, in table order. -/
def keywordScores (u : String) : List (String × ℚ) :=
  let words := pySplitWords u
  intentKeywords.map (fun p =>
    (p.1, p.2.foldl (fun sc k =>
        if strContains u k then
          if words.contains k then sc + 1 + 1/2 else sc + 1
        else sc) 0))

def foldBest : (String × ℚ) → List (String × ℚ) → (String × ℚ)
  | cur, [] => cur
  | cur, p :: ps => foldBest (if p.2 > cur.2 then p else cur) ps

/-- `IntentController._detect_intent_by_keywords`: Python
`max(intent_scores, key=intent_scores.get)` returns the first key attaining
the maximum in iteration order; a non-positive best score yields `None`. -/
def detectIntentByKeywords (u : String) : Option String :=
  match keywordScores u with
  | [] => none
  | s0 :: rest =>
      let best := foldBest s0 rest
      if best.2 > 0 then some best.1 else none

/-- Suffix after the first occurrence of `k`, i.e. `u.split(k, 1)[1]` when
`k` occurs in `u`. -/
def afterFirstAux (k : List Char) : List Char → Option (List Char)
  | [] => if k.isPrefixOf ([] : List Char) then some [] else none
  | c :: rest =>
      if k.isPrefixOf (c :: rest) then some ((c :: rest).drop k.length)
      else afterFirstAux k rest

def searchQueryAux (u : String) : List String → String
  | [] => u
  | k :: rest =>
      if strContains u k then
        match afterFirstAux k.data u.data with
        | some suf => pyStrip (String.mk suf)
        | none => searchQueryAux u rest
      else searchQueryAux u rest

/-- The `search` branch of `_extract_info_by_keywords`. -/
def searchQueryOf (u : String) : String :=
  searchQueryAux u ["search", "find", "look", "what", "tell", "information", "know", "help"]

/-- `IntentController._extract_info_by_keywords`. -/
def extractInfoByKeywords (intent : String) (u : String) : SlotMap :=
  if intent = "calculate" then
    [("operation", Value.str (detectOperation u)),
     ("numbers", Value.list (reFindAll numPat u))]
  else if intent = "weather" then
    match reSearch locPat1 u with
    | some caps => [("location", Value.str (pyStrip ((caps.headD none).getD "")))]
    | none =>
        match reSearch locPat2 u with
        | some caps => [("location", Value.str (pyStrip ((caps.headD none).getD "")))]
        | none =>
            match reFindAll capitalizedPat u with
            | loc :: _ => [("location", Value.str loc)]
            | [] => []
  else if intent = "book_flight" then
    (match reSearch fromToPat u with
     | some caps =>
         [("origin", Value.str (pyStrip ((caps.getD 0 none).getD ""))),
          ("destination", Value.str (pyStrip ((caps.getD 1 none).getD "")))]
     | none => []) ++
    (match datePats.findSome? (fun p => reSearch p u) with
     | some caps => [("date", Value.str (pyStrip ((caps.headD none).getD "")))]
     | none => [])
  else if intent = "send_email" then
    (match reFindAll emailAddrPat u with
     | e :: _ => [("recipient", Value.str e)]
     | [] => []) ++
    (match reSearch subjectPat u with
     | some caps => [("subject", Value.str (pyStrip ((caps.headD none).getD "")))]
     | none => [])
  else if intent = "search" then
    [("query", Value.str (searchQueryOf u))]
  else if intent = "schedule_meeting" then
    (match reSearch withPat u with
     | some caps => [("participants", Value.str (pyStrip ((caps.headD none).getD "")))]
     | none => []) ++
    (match datePats.findSome? (fun p => reSearch p u) with
     | some caps => [("date", Value.str (pyStrip ((caps.headD none).getD "")))]
     | none => [])
  else []

/-! ### Intent classification -/

def firstRe (u : String) : List RE → Option (RE × Caps)
  | [] => none
  | p :: ps =>
      match reSearch p u with
      | some m => some (p, m)
      | none => firstRe u ps

/-- The pattern-phase double loop of `parse_intent`: first matching
(intent, pattern) pair in declaration order. -/
def findPattern (u : String) : List (String × List RE) → Option (String × RE × Caps)
  | [] => none
  | ip :: rest =>
      match firstRe u ip.2 with
      | some pm => some (ip.1, pm.1, pm.2)
      | none => findPattern u rest

structure ClassRes where
  intent : String
  confidence : ℚ
  extractedInfo : SlotMap
  rawInput : String
  detectionMethod : String
deriving DecidableEq, Repr

/-- `IntentController.parse_intent`. -/
def parseIntentE (userInput : String) : Except String ClassRes :=
  let u := pyNormalize userInput
  match findPattern u intentPatterns with
  | some ipm => do
      let info ← extractInfoFromMatch ipm.1 ipm.2.2 u
      pure { intent := ipm.1, confidence := 9/10, extractedInfo := info, rawInput := u,
             detectionMethod := "pattern" }
  | none =>
      match detectIntentByKeywords u with
      | some ki =>
          pure { intent := ki, confidence := 7/10,
                 extractedInfo := extractInfoByKeywords ki u, rawInput := u,
                 detectionMethod := "keywords" }
      | none =>
          pure { intent := "search", confidence := 3/10,
                 extractedInfo := [("query", Value.str u)], rawInput := u,
                 detectionMethod := "default" }

/-! ### Completeness check, action selection, execution -/

/-- `IntentController.check_missing_info` (the `elif isinstance(..., list)`
branch of the source is kept although the first test subsumes it). -/
def checkMissingInfo (intent : String) (info : SlotMap) : List String :=
  match (requiredFields.find? (fun p => p.1 == intent)).map (fun p => p.2) with
  | none => []
  | some required =>
      required.foldl (fun missing field =>
        match lookupSlot? info field with
        | none => missing ++ [field]
        | some v =>
            if pyFalsy v then missing ++ [field]
            else
              match v with
              | .list l => if l.isEmpty then missing ++ [field] else missing
              | _ => missing) []

def lookupStr (m : List (String × String)) (k : String) : Option String :=
  (m.find? (fun p => p.1 == k)).map (fun p => p.2)

def intentBaseMessages : List (String × String) :=
  [ ("calculate", "I need to know what numbers you want to calculate with."),
    ("weather", "I need to know which location you want weather information for."),
    ("book_flight", "I need the origin, destination, and date for your flight."),
    ("send_email", "I need the recipient and subject for your email."),
    ("search", "I need to know what you want to search for."),
    ("schedule_meeting", "I need to know who to meet with and when.") ]

def fieldMessages : List (String × String) :=
  [ ("operation", "What operation would you like to perform? (add, subtract, multiply, divide)"),
    ("numbers", "What numbers would you like to calculate with?"),
    ("location", "Which location would you like weather information for?"),
    ("origin", "Where are you departing from?"),
    ("destination", "Where are you traveling to?"),
    ("date", "What date would you like?"),
    ("recipient", "Who should I send the email to?"),
    ("subject", "What should the email subject be?"),
    ("message", "What message would you like to send?"),
    ("query", "What would you like to search for?"),
    ("participants", "Who should attend the meeting?"),
    ("duration", "How long should the meeting be?") ]

/-- `IntentController._generate_missing_info_message`. -/
def generateMissingInfoMessage (intent : String) (missingFields : List String) : String :=
  let base := (lookupStr intentBaseMessages intent).getD "I need more information to help you."
  match missingFields with
  | [f] =>
      let specific := (lookupStr fieldMessages f).getD ("Please provide " ++ f ++ ".")
      base ++ " " ++ specific
  | _ => base

/-- `IntentController._generate_direct_answer`. -/
def generateDirectAnswer (intent : String) (data : SlotMap) : String :=
  if intent = "search" then
    let query := match lookupSlot? data "query" with
      | some v => showValue v
      | none => ""
    "I\x27ll search for information about \x27" ++ query ++ "\x27 for you."
  else "I understand you want to " ++ intent ++ ". Let me help you with that."

inductive ActionType where
  | askForInfo
  | callApi
  | answerDirectly
deriving DecidableEq, Repr

def actionTypeValue : ActionType → String
  | .askForInfo => "ask_for_info"
  | .callApi => "call_api"
  | .answerDirectly => "answer_directly"

/-- The action-specific payload dict built by `decide_action`, modelled as a
tagged record per action type (the source builds a plain dict whose keys are
exactly these fields). -/
inductive ActionData where
  | forAsk (missingFields : List String) (intent : String) (message : String)
  | forCall (endpoint : String) (intent : String) (data : SlotMap)
  | forAnswer (intent : String) (data : SlotMap) (message : String)
deriving DecidableEq, Repr

/-- `IntentController.decide_action`. -/
def decideAction (intent : String) (missingInfo : List String) (extractedInfo : SlotMap) :
    ActionType × ActionData :=
  if missingInfo ≠ [] then
    (.askForInfo, .forAsk missingInfo intent (generateMissingInfoMessage intent missingInfo))
  else
    match lookupStr apiEndpoints intent with
    | some ep => (.callApi, .forCall ep intent extractedInfo)
    | none =>
        (.answerDirectly, .forAnswer intent extractedInfo
          (generateDirectAnswer intent extractedInfo))

/-- The terminal result dict of `execute_action`, one variant per
discriminator value. -/
inductive ExecResult where
  | askInfo (response : String) (missingFields : List String) (intent : String)
  | apiResp (endpoint : String) (result : String) (status : String)
      (errorType : Option String) (dataEcho : Option SlotMap)
  | direct (response : String) (intent : String)
deriving DecidableEq, Repr

/-! ### The arithmetic evaluator -/

inductive CalcErr where
  | emptyList
  | powerArity
  | sqrtArity
  | sqrtNeg
  | divZero
  | overflow
  | zeroNegPow
  | unknownOp (op : String)
  | inexact
deriving DecidableEq, Repr

def ratSqrt? (q : ℚ) : Option ℚ :=
  let r : ℚ := (Nat.sqrt q.num.natAbs : ℚ) / (Nat.sqrt q.den : ℚ)
  if r * r = q then some r else none

/-- Exact integer power of a rational, computed through `Nat.pow` on the
numerator magnitude and the denominator (on literals the kernel evaluates
`Nat.pow` directly, unlike the unary recursion behind `Monoid.npow`);
`ratPowN_eq` identifies it with `b ^ m`. -/
def ratPowN (b : ℚ) (m : ℕ) : ℚ :=
  if b.num < 0 ∧ m % 2 = 1 then
    -(((b.num.natAbs ^ m : ℕ) : ℚ) / ((b.den ^ m : ℕ) : ℚ))
  else ((b.num.natAbs ^ m : ℕ) : ℚ) / ((b.den ^ m : ℕ) : ℚ)

def ratZPow (b : ℚ) (n : ℤ) : ℚ :=
  if 0 ≤ n then ratPowN b n.toNat else (ratPowN b (-n).toNat)⁻¹

/-- Python float `b ** e` in the rational model: exact on integral exponents
(an `OverflowError` past the double range, a `ZeroDivisionError` on
`0.0 ** negative`) and on exact square roots for `e = 1/2`; float results
that are not exactly representable as the denoted rational are outside the
model and map to `.inexact` (no claim depends on them). -/
def pyPow (b e : ℚ) : Except CalcErr ℚ :=
  if e.den = 1 then
    if b = 0 ∧ e.num < 0 then .error .zeroNegPow
    else
      let r := ratZPow b e.num
      if dblMax < |r| then .error .overflow else .ok r
  else if e = 1 / 2 ∧ 0 ≤ b then
    match ratSqrt? b with
    | some r => .ok r
    | none => .error .inexact
  else .error .inexact

/-- The operation dispatch inside `_calculate_result`'s `try` block.
`.emptyList` models the `IndexError` that `float_numbers[0]` would raise on
an empty list (caught by the source's own `except Exception`); it is
unreachable behind the operand-count validation. -/
def calcCompute (operation : String) (vs : List ℚ) : Except CalcErr ℚ :=
  if operation = "add" then .ok vs.sum
  else if operation = "subtract" then
    match vs with
    | v :: rest => .ok (v - rest.sum)
    | [] => .error .emptyList
  else if operation = "multiply" then .ok (vs.foldl (fun a b => a * b) 1)
  else if operation = "divide" then
    match vs with
    | v :: rest =>
        if rest.contains (0 : ℚ) then .error .divZero
        else .ok (rest.foldl (fun a b => a / b) v)
    | [] => .error .emptyList
  else if operation = "power" then
    match vs with
    | [b, e] => pyPow b e
    | _ => .error .powerArity
  else if operation = "sqrt" then
    match vs with
    | [v] =>
        if v < 0 then .error .sqrtNeg
        else
          match ratSqrt? v with
          | some r => .ok r
          | none => .error .inexact
    | _ => .error .sqrtArity
  else .error (.unknownOp operation)

/-- The error strings `_calculate_result` returns for each failure of the
computation step (the `.emptyList`, `.zeroNegPow` and `.inexact` strings
model the `except` clauses formatting the caught exception). -/
def calcErrMessage : CalcErr → String
  | .emptyList => "Error: Calculation failed - list index out of range"
  | .powerArity => "Error: Power operation requires exactly two numbers"
  | .sqrtArity => "Error: Square root operation requires exactly one number"
  | .sqrtNeg => "Error: Cannot calculate square root of negative number"
  | .divZero => "Error: Cannot divide by zero"
  | .overflow => "Error: Calculation result is too large"
  | .zeroNegPow => "Error: Calculation failed - 0.0 cannot be raised to a negative power"
  | .unknownOp op => "Error: Unknown operation \x27" ++ op ++
      "\x27. Supported operations: add, subtract, multiply, divide, power, sqrt"
  | .inexact => "Error: Calculation failed - result outside the exact rational model"

/-- The `float(num_str)` conversion loop: the first unparseable token is
reported. -/
def parseAllNumbers : List String → Except String (List ℚ)
  | [] => .ok []
  | t :: ts =>
      match pyFloat? t with
      | none => .error t
      | some q =>
          match parseAllNumbers ts with
          | .ok vs => .ok (q :: vs)
          | .error e => .error e

def opSymbol (operation : String) : String :=
  if operation = "add" then "+"
  else if operation = "subtract" then "-"
  else if operation = "multiply" then "×"
  else if operation = "divide" then "÷"
  else if operation = "power" then "^"
  else "√"

/-- The `expression` string built at the end of `_calculate_result`. -/
def calcExpression (operation : String) (vs : List ℚ) : String :=
  if operation = "sqrt" then "√(" ++ pyFloatRepr (vs.headD 0) ++ ")"
  else String.intercalate (" " ++ opSymbol operation ++ " ") (vs.map pyFloatRepr)

/-- The result formatting at the end of `_calculate_result`:
`result == int(result)` holds exactly when the rational is an integer. -/
def formatCalcResult (operation : String) (vs : List ℚ) (result : ℚ) : String :=
  if result.den = 1 then calcExpression operation vs ++ " = " ++ toString result.num
  else calcExpression operation vs ++ " = " ++ pyFloatRepr (roundTo6 result)

/-- `IntentController._calculate_result` on the already-projected operation
string and numbers list. -/
def calcCore (operation : String) (numbers : List String) : String :=
  if numbers.isEmpty then "Error: No numbers provided for calculation"
  else if operation = "sqrt" ∧ numbers.length < 1 then
    "Error: Square root operation requires at least one number"
  else if operation ≠ "sqrt" ∧ numbers.length < 2 then
    "Error: Need at least two numbers for calculation"
  else if 10 < numbers.length then "Error: Too many numbers provided (maximum 10)"
  else
    match parseAllNumbers numbers with
    | .error t => "Error: \x27" ++ t ++ "\x27 is not a valid number"
    | .ok vs =>
        match calcCompute operation vs with
        | .error e => calcErrMessage e
        | .ok v => formatCalcResult operation vs v

/-- `IntentController._calculate_result`: project `data.get("operation","add")`
and `data.get("numbers", [])` as the source does (iterating a string value
yields its characters; a non-string operation compares unequal to every
operation name, reproducing the unknown-operation path with the f-string
rendering). -/
def calculateResult (data : SlotMap) : String :=
  let opVal := (lookupSlot? data "operation").getD (Value.str "add")
  let numbersVal := (lookupSlot? data "numbers").getD (Value.list [])
  let numbers := match numbersVal with
    | .list l => l
    | .str s => s.data.map (fun c => String.mk [c])
  calcCore (showValue opVal) numbers

/-- `IntentController._call_calculator_api`.  `_calculate_result` returns a
string on every path — it catches `OverflowError` and `Exception` itself —
so the `except` branch of `_call_calculator_api` (the only producer of
`error_type = "api_error"`) cannot fire and has no counterpart here. -/
def callCalculatorApi (data : SlotMap) : ExecResult :=
  let result := calculateResult data
  if pyStartsWith result "Error:" then
    .apiResp "calculator" result "error" (some "calculation_error") (some data)
  else
    .apiResp "calculator" result "success" none (some data)

def getSlotRepr (data : SlotMap) (k : String) : String :=
  match lookupSlot? data k with
  | some v => showValue v
  | none => "None"

/-- `IntentController._call_api`. -/
def callApi (endpoint : String) (data : SlotMap) : ExecResult :=
  if endpoint = "calculator_api" then callCalculatorApi data
  else if endpoint = "weather_api" then
    .apiResp "weather" ("Weather information for " ++
      (match lookupSlot? data "location" with
       | some v => showValue v
       | none => "unknown location")) "success" none none
  else if endpoint = "flight_booking_api" then
    .apiResp "flight_booking" ("Flight booked from " ++ getSlotRepr data "origin" ++ " to " ++
      getSlotRepr data "destination" ++ " on " ++ getSlotRepr data "date") "success" none none
  else if endpoint = "email_api" then
    .apiResp "email" ("Email sent to " ++ getSlotRepr data "recipient" ++ " with subject: " ++
      getSlotRepr data "subject") "success" none none
  else if endpoint = "search_api" then
    .apiResp "search" ("Search results for: " ++ getSlotRepr data "query") "success" none none
  else if endpoint = "calendar_api" then
    .apiResp "calendar" ("Meeting scheduled with " ++ getSlotRepr data "participants" ++
      " on " ++ getSlotRepr data "date") "success" none none
  else .apiResp endpoint "API call completed" "success" none none

/-- `IntentController.execute_action`.  `decide_action` always pairs an
action type with its own payload shape; the mismatched fall-through cases
are unreachable. -/
def executeAction (t : ActionType) (d : ActionData) : ExecResult :=
  match t, d with
  | .askForInfo, .forAsk missing intent msg => .askInfo msg missing intent
  | .callApi, .forCall ep _ data => callApi ep data
  | .answerDirectly, .forAnswer intent _ msg => .direct msg intent
  | .askForInfo, _ => .askInfo "" [] ""
  | .callApi, _ => callApi "" []
  | .answerDirectly, _ => .direct "" ""

structure PipelineOutput where
  input : String
  intentAnalysis : ClassRes
  missingInfo : List String
  actionTaken : String
  result : ExecResult
deriving DecidableEq, Repr

/-- `IntentController.process_input`: the full pipeline.  The `Except` layer
carries the only exception Python could raise here (a tuple `IndexError`
during pattern-mode slot extraction); the totality theorem below shows it
never fires. -/
def processInputE (userInput : String) : Except String PipelineOutput := do
  let intentResult ← parseIntentE userInput
  let missing := checkMissingInfo intentResult.intent intentResult.extractedInfo
  let ad := decideAction intentResult.intent missing intentResult.extractedInfo
  let result := executeAction ad.1 ad.2
  pure { input := userInput, intentAnalysis := intentResult, missingInfo := missing,
         actionTaken := actionTypeValue ad.1, result := result }

/-! ### IEEE-754 binary64 model of the arithmetic in `_calculate_result`

CPython floats are IEEE-754 binary64 values.  `FP` carries a finite value as
the exact rational it denotes (`fin 0` is `+0.0`, the negative zero is its
own constructor), plus the infinities and NaN.  `roundDbl` is rounding to
nearest with ties to even, overflowing to the infinities and underflowing
through the subnormal range to a signed zero, so `fpAdd`, `fpSub`, `fpMul`
and `fpDiv` are the correctly rounded IEEE operations the C double
arithmetic underneath CPython performs.  The binary `**` operator instead
delegates to the platform `pow`, whose rounding at inexact arguments is not
determined by the source (on the container used to cross-check, `10.0 **
23.0` returns the odd neighbour of the exact tie while correct rounding
gives the even one), so the evaluator model `calcTryFP`/`calcCoreFP` takes
the pow implementation as a parameter `pw`; `fpPowModel` is one admissible
instance used to instantiate witnesses, exact on the fragment it models. -/

inductive FP where
  | fin (q : ℚ)
  | nzero
  | inf
  | ninf
  | nan
deriving DecidableEq, Repr

def bitLenSmall : Nat → Nat → Nat
  | 0, _ => 0
  | fuel + 1, n => if n = 0 then 0 else bitLenSmall fuel (n / 2) + 1

def bitLenAux : Nat → Nat → Nat
  | 0, _ => 0
  | fuel + 1, n => if n < 2 ^ 64 then bitLenSmall 64 n else bitLenAux fuel (n / 2 ^ 64) + 64

/-- Bit length of a natural number (64-bit strides keep the recursion
shallow enough for kernel evaluation on 1000-bit operands). -/
def bitLen (n : Nat) : Nat := bitLenAux n n

/-- `q * 2 ^ k` computed through `Nat.pow` literals. -/
def shift2 (q : ℚ) (k : ℤ) : ℚ :=
  if 0 ≤ k then q * ((2 ^ k.toNat : ℕ) : ℚ) else q / ((2 ^ (-k).toNat : ℕ) : ℚ)

/-- `q * 10 ^ k` computed through `Nat.pow` literals. -/
def shift10 (q : ℚ) (k : ℤ) : ℚ :=
  if 0 ≤ k then q * ((10 ^ k.toNat : ℕ) : ℚ) else q / ((10 ^ (-k).toNat : ℕ) : ℚ)

/-- `⌊log₂ q⌋` for positive `q`. -/
def floorLog2Pos (q : ℚ) : ℤ :=
  let e : ℤ := (bitLen q.num.natAbs : ℤ) - (bitLen q.den : ℤ)
  if shift2 1 e ≤ q then e else e - 1

/-- Round a positive rational onto the binary64 grid (53-bit mantissa above
the subnormal threshold `2 ^ (-1074)`), nearest with ties to even, with no
range cap: overflow is detected by comparing against `dblMax`. -/
def roundMag (a : ℚ) : ℚ :=
  let e := floorLog2Pos a
  let E : ℤ := max (e - 52) (-1074)
  let m := roundHalfEven (shift2 a (-E))
  shift2 (m : ℚ) E

/-- Round a rational to the nearest binary64 value: IEEE round-to-nearest,
ties to even, with overflow to the signed infinity and underflow to the
signed zero. -/
def roundDbl (q : ℚ) : FP :=
  if q = 0 then .fin 0
  else if 0 < q then
    let v := roundMag q
    if dblMax < v then .inf else .fin v
  else
    let v := roundMag (-q)
    if dblMax < v then .ninf else if v = 0 then .nzero else .fin (-v)

/-- Constructor-wise boolean equality on `FP` (primitive `==` on the
components, which evaluates fast on large numerators). -/
def fpBeq : FP → FP → Bool
  | .fin a, .fin b => a.num == b.num && a.den == b.den
  | .nzero, .nzero => true
  | .inf, .inf => true
  | .ninf, .ninf => true
  | .nan, .nan => true
  | _, _ => false

/-- Python `x == 0` on a float (both zeros compare equal, NaN does not). -/
def fpIsZero : FP → Bool
  | .fin q => q = 0
  | .nzero => true
  | _ => false

/-- The IEEE sign bit (used for the sign of zero results). -/
def fpNegSign : FP → Bool
  | .fin q => q < 0
  | .nzero => true
  | .ninf => true
  | _ => false

/-- Python `x < 0` on a float (`-0.0 < 0` and `nan < 0` are both false). -/
def fpLtZero : FP → Bool
  | .fin q => q < 0
  | .ninf => true
  | _ => false

def fpNeg : FP → FP
  | .fin q => if q = 0 then .nzero else .fin (-q)
  | .nzero => .fin 0
  | .inf => .ninf
  | .ninf => .inf
  | .nan => .nan

/-- IEEE binary64 addition: correctly rounded on finite operands (an exact
cancellation gives `+0.0` in round-to-nearest). -/
def fpAdd : FP → FP → FP
  | .nan, _ => .nan
  | _, .nan => .nan
  | .inf, .ninf => .nan
  | .ninf, .inf => .nan
  | .inf, _ => .inf
  | _, .inf => .inf
  | .ninf, _ => .ninf
  | _, .ninf => .ninf
  | .nzero, .nzero => .nzero
  | .nzero, .fin q => .fin q
  | .fin q, .nzero => .fin q
  | .fin a, .fin b => roundDbl (a + b)

/-- IEEE binary64 subtraction, the addition of the negation. -/
def fpSub (x y : FP) : FP := fpAdd x (fpNeg y)

/-- IEEE binary64 multiplication. -/
def fpMul : FP → FP → FP
  | .nan, _ => .nan
  | _, .nan => .nan
  | .inf, y => if fpIsZero y then .nan else if fpNegSign y then .ninf else .inf
  | .ninf, y => if fpIsZero y then .nan else if fpNegSign y then .inf else .ninf
  | x, .inf => if fpIsZero x then .nan else if fpNegSign x then .ninf else .inf
  | x, .ninf => if fpIsZero x then .nan else if fpNegSign x then .inf else .ninf
  | .nzero, .nzero => .fin 0
  | .nzero, .fin b => if b < 0 then .fin 0 else .nzero
  | .fin a, .nzero => if a < 0 then .fin 0 else .nzero
  | .fin a, .fin b =>
      if a = 0 ∨ b = 0 then
        (if (decide (a < 0)).xor (decide (b < 0)) then .nzero else .fin 0)
      else roundDbl (a * b)

/-- IEEE binary64 division.  A zero divisor would raise `ZeroDivisionError`
in Python; the divide branch of `_calculate_result` tests `0 in
float_numbers[1:]` first, so that case is unreachable there and is mapped
to `nan` here. -/
def fpDiv : FP → FP → FP
  | .nan, _ => .nan
  | _, .nan => .nan
  | .inf, .inf => .nan
  | .inf, .ninf => .nan
  | .ninf, .inf => .nan
  | .ninf, .ninf => .nan
  | .inf, y => if fpNegSign y then .ninf else .inf
  | .ninf, y => if fpNegSign y then .inf else .ninf
  | x, .inf => if fpNegSign x then .nzero else .fin 0
  | x, .ninf => if fpNegSign x then .fin 0 else .nzero
  | .nzero, y => if fpIsZero y then .nan else if fpNegSign y then .fin 0 else .nzero
  | .fin a, y =>
      match y with
      | .fin b =>
          if b = 0 then .nan
          else if a = 0 then (if b < 0 then .nzero else .fin 0)
          else roundDbl (a / b)
      | .nzero => .nan
      | _ => .nan

/-- The exceptions `_calculate_result` can catch: `OverflowError`
(its own `except` arm) and any other exception carrying `str(e)`. -/
inductive PyErr where
  | overflow
  | exc (msg : String)
deriving DecidableEq, Repr

/-- Integer truncation toward zero, the value of Python `int(float)`. -/
def truncQ (q : ℚ) : ℤ := q.num.tdiv q.den

/-- Python `int(result)`: truncation on finite values, `OverflowError` on the
infinities, `ValueError` on NaN. -/
def fpInt : FP → Except PyErr ℤ
  | .fin q => .ok (truncQ q)
  | .nzero => .ok 0
  | .inf => .error .overflow
  | .ninf => .error .overflow
  | .nan => .error (.exc "cannot convert float NaN to integer")

/-- Python `result == int(result)` (exact comparison of a float with an
int; a finite rational equals an integer exactly when its denominator is 1
and its numerator is that integer). -/
def fpEqIntB : FP → ℤ → Bool
  | .fin q, t => q.den == 1 && q.num == t
  | .nzero, t => t == 0
  | _, _ => false

/-- Python `round(x, 6)`: correctly rounded to six decimal places on the
exact value, then back onto the binary64 grid; the sign of an underflowed
negative result is preserved. -/
def fpRound6 : FP → FP
  | .fin q => if q < 0 ∧ roundTo6 q = 0 then .nzero else roundDbl (roundTo6 q)
  | x => x

def digitChar (n : Nat) : Char := "0123456789".data.getD n '0'

def natDecAux : Nat → Nat → List Char
  | 0, _ => []
  | fuel + 1, n =>
      if n < 10 then [digitChar n]
      else natDecAux fuel (n / 10) ++ [digitChar (n % 10)]

/-- Decimal digits of a natural number. -/
def natRepr (n : Nat) : String := String.mk (natDecAux (n + 1) n)

/-- Python `str(int)`. -/
def intRepr (t : ℤ) : String := (if t < 0 then "-" else "") ++ natRepr t.natAbs

def digits10 (n : Nat) : Nat := (natDecAux (n + 1) n).length

def negExp10Aux (a : ℚ) : Nat → Nat
  | 0 => 1200
  | fuel + 1 =>
      let k := 1200 - fuel
      if 1 ≤ shift10 a (k : ℤ) then k else negExp10Aux a fuel

/-- `⌊log₁₀ a⌋` for positive `a` (the fuel covers the whole double range):
for `a < 1` it is the negation of the least `k` with `a * 10 ^ k ≥ 1`. -/
def floorLog10Pos (a : ℚ) : ℤ :=
  if 1 ≤ a then (digits10 (Int.toNat ⌊a⌋) : ℤ) - 1
  else -(negExp10Aux a 1200 : ℤ)

def stripTrailZeros (cs : List Char) : List Char :=
  (cs.reverse.dropWhile (fun c => c == '0')).reverse

/-- Shortest-round-trip digit search of CPython `repr(float)`: the fewest
significant decimal digits (nearest, ties to even) whose nearest double is
the value again; returns the digit block and the number of digits used
(tries `k = 18 - fuel` digits, so 1 up to the 17 every double needs). -/
def shortestAux (x : ℚ) (e10 : ℤ) : Nat → (Nat × Nat)
  | 0 => (Int.toNat (roundHalfEven (shift10 x (17 - 1 - e10))), 17)
  | fuel + 1 =>
      let k : Nat := 18 - (fuel + 1)
      let t : ℤ := (k : ℤ) - 1 - e10
      let s := roundHalfEven (shift10 x t)
      let v := shift10 (s : ℚ) (-t)
      if fpBeq (roundDbl v) (FP.fin x) then (Int.toNat s, k)
      else shortestAux x e10 fuel

def natDigitsPadFP (k n : Nat) : String :=
  String.mk (List.replicate (k - (natDecAux (n + 1) n).length) '0') ++ natRepr n

/-- CPython float formatting from a digit block and decimal exponent: fixed
notation for exponents in `[-4, 16)` (with `.0` appended to integral
values), otherwise scientific notation with a signed two-digit-minimum
exponent. -/
def fmtFromDigits (D : List Char) (e10 : ℤ) : String :=
  let L : ℤ := (D.length : ℤ)
  if -4 ≤ e10 ∧ e10 < 16 then
    if L - 1 ≤ e10 then
      String.mk D ++ String.mk (List.replicate (Int.toNat (e10 - (L - 1))) '0') ++ ".0"
    else if 0 ≤ e10 then
      String.mk (D.take (Int.toNat e10 + 1)) ++ "." ++ String.mk (D.drop (Int.toNat e10 + 1))
    else "0." ++ String.mk (List.replicate (Int.toNat (-e10) - 1) '0') ++ String.mk D
  else
    let head := String.mk (D.take 1)
    let tail := D.drop 1
    let mant := if tail = [] then head else head ++ "." ++ String.mk tail
    let esign := if e10 < 0 then "-" else "+"
    mant ++ "e" ++ esign ++ natDigitsPadFP 2 (Int.toNat |e10|)

def reprPos (x : ℚ) : String :=
  let e10 := floorLog10Pos x
  let sk := shortestAux x e10 17
  let e10eff := e10 + (digits10 sk.1 : ℤ) - (sk.2 : ℤ)
  fmtFromDigits (stripTrailZeros (natDecAux (sk.1 + 1) sk.1)) e10eff

/-- CPython `str(float)` (= `repr`): shortest round-trip decimal. -/
def fpRepr : FP → String
  | .fin q => if q = 0 then "0.0" else if 0 < q then reprPos q else "-" ++ reprPos (-q)
  | .nzero => "-0.0"
  | .inf => "inf"
  | .ninf => "-inf"
  | .nan => "nan"

def groupRestAux : Nat → List Char → (List Char × List Char)
  | 0, cs => ([], cs)
  | fuel + 1, cs =>
      match cs with
      | c :: rest =>
          if c.isDigit then
            let r := groupRestAux fuel rest
            (c :: r.1, r.2)
          else if c = '_' then
            match rest with
            | d :: rest2 =>
                if d.isDigit then
                  let r := groupRestAux fuel rest2
                  (d :: r.1, r.2)
                else ([], c :: rest)
            | [] => ([], [c])
          else ([], c :: rest)
      | [] => ([], [])

/-- A digit group of CPython `float()`: digits with single underscores
allowed between digits only (PEP 515). -/
def groupDigits : List Char → (List Char × List Char)
  | c :: rest =>
      if c.isDigit then
        let r := groupRestAux rest.length rest
        (c :: r.1, r.2)
      else ([], c :: rest)
  | [] => ([], [])

def parseExpFP : List Char → Option ℤ
  | [] => some 0
  | e :: rest =>
      if e = 'e' ∨ e = 'E' then
        let sr := parseSign rest
        let dr := groupDigits sr.2
        if dr.1 = [] ∨ dr.2 ≠ [] then none
        else some (if sr.1 then -(digitsToNat dr.1 : ℤ) else (digitsToNat dr.1 : ℤ))
      else none

/-- The decimal forms accepted by CPython `float()` after sign stripping:
`digits[.digits][exp]`, `.digits[exp]`, `digits.[exp]`; the exact rational
denoted by the literal. -/
def pyFloatFPCore (cs : List Char) : Option ℚ :=
  let ip := groupDigits cs
  match ip.2 with
  | '.' :: cs2 =>
      let fp2 := groupDigits cs2
      if ip.1 = [] ∧ fp2.1 = [] then none
      else
        match parseExpFP fp2.2 with
        | none => none
        | some e =>
            some (shift10 ((digitsToNat ip.1 : ℚ) +
              (digitsToNat fp2.1 : ℚ) / ((10 ^ fp2.1.length : ℕ) : ℚ)) e)
  | rest =>
      if ip.1 = [] then none
      else
        match parseExpFP rest with
        | none => none
        | some e => some (shift10 (digitsToNat ip.1 : ℚ) e)

/-- CPython `float(str)`: surrounding whitespace stripped, optional sign,
`inf`/`infinity`/`nan` case-insensitively, else a decimal literal rounded
to the nearest binary64 value (a negative zero literal gives `-0.0`). -/
def pyFloatFP? (s : String) : Option FP :=
  let cs := (pyStrip s).data
  let sg := parseSign cs
  let low := sg.2.map Char.toLower
  if low = "inf".data ∨ low = "infinity".data then some (if sg.1 then .ninf else .inf)
  else if low = "nan".data then some .nan
  else
    match pyFloatFPCore sg.2 with
    | none => none
    | some v =>
        if v = 0 then some (if sg.1 then .nzero else .fin 0)
        else some (roundDbl (if sg.1 then -v else v))

def isqrtAux (n : Nat) : Nat → Nat → Nat
  | 0, g => g
  | fuel + 1, g =>
      let g2 := (g + n / g) / 2
      if g2 < g then isqrtAux n fuel g2 else g

/-- Integer square root (Newton iteration from an upper bound, the floor of
the real square root). -/
def isqrtN (n : Nat) : Nat :=
  if n ≤ 1 then n else isqrtAux n 200 (2 ^ (bitLen n / 2 + 1))

/-- Round-to-nearest-even binary64 value of the square root of a positive
rational (for the pow-instance fragment at exponent `0.5`). -/
def roundSqrtPos (b : ℚ) : ℚ :=
  let e := (floorLog2Pos b).fdiv 2
  let E : ℤ := max (e - 52) (-1074)
  let c := shift2 b (-(2 * E))
  let n := c.num.natAbs
  let d := c.den
  let i := isqrtN (n * d) / d
  let m :=
    if n * 4 < d * (2 * i + 1) ^ 2 then i
    else if d * (2 * i + 1) ^ 2 < n * 4 then i + 1
    else if i % 2 = 0 then i else i + 1
  shift2 (m : ℚ) E

/-- One admissible platform pow: exact (correctly rounded) on integral
exponents and on exponent `0.5`, with the CPython `OverflowError` and
`ZeroDivisionError` behaviours; arguments outside this fragment are mapped
to NaN.  The platform pow CPython actually calls is not determined by the
source, so every theorem about the evaluator quantifies over the
implementation and this instance only feeds the witnesses. -/
def fpPowModel : FP → FP → Except PyErr FP
  | .fin b, .fin e =>
      if e.den = 1 then
        if b = 0 ∧ e.num < 0 then .error (.exc "0.0 cannot be raised to a negative power")
        else
          match roundDbl (ratZPow b e.num) with
          | .inf => .error .overflow
          | .ninf => .error .overflow
          | v => .ok v
      else if e = 1 / 2 ∧ 0 ≤ b then
        .ok (if b = 0 then .fin 0 else .fin (roundSqrtPos b))
      else .ok .nan
  | _, _ => .ok .nan

/-- Python `" sym ".join(...)`. -/
def joinSep (sep : String) : List String → String
  | [] => ""
  | [s] => s
  | s :: rest => s ++ sep ++ joinSep sep rest

/-- The result-formatting tail of `_calculate_result`: `int(result)` first
(which can raise), then the integral-or-round-to-6 rendering. -/
def fmtResultFP (expr : String) (r : FP) : Except PyErr String := do
  let t ← fpInt r
  if fpEqIntB r t then pure (expr ++ " = " ++ intRepr t)
  else pure (expr ++ " = " ++ fpRepr (fpRound6 r))

/-- The `try` block of `_calculate_result` after float conversion, on the
IEEE model, parameterized by the platform pow `pw`. -/
def calcTryFP (pw : FP → FP → Except PyErr FP) (operation : String) (ds : List FP) :
    Except PyErr String :=
  if operation = "add" then
    fmtResultFP (joinSep " + " (ds.map fpRepr)) (ds.foldl fpAdd (.fin 0))
  else if operation = "subtract" then
    match ds with
    | d0 :: rest =>
        fmtResultFP (joinSep " - " (ds.map fpRepr)) (fpSub d0 (rest.foldl fpAdd (.fin 0)))
    | [] => .error (.exc "list index out of range")
  else if operation = "multiply" then
    fmtResultFP (joinSep " × " (ds.map fpRepr)) (ds.foldl fpMul (.fin 1))
  else if operation = "divide" then
    match ds with
    | d0 :: rest =>
        if rest.any fpIsZero then .ok "Error: Cannot divide by zero"
        else fmtResultFP (joinSep " ÷ " (ds.map fpRepr)) (rest.foldl fpDiv d0)
    | [] => .error (.exc "list index out of range")
  else if operation = "power" then
    match ds with
    | [a, b] => do
        let r ← pw a b
        fmtResultFP (joinSep " ^ " (ds.map fpRepr)) r
    | _ => .ok "Error: Power operation requires exactly two numbers"
  else if operation = "sqrt" then
    match ds with
    | [a] =>
        if fpLtZero a then .ok "Error: Cannot calculate square root of negative number"
        else do
          let r ← pw a (.fin (1 / 2))
          fmtResultFP ("√(" ++ fpRepr a ++ ")") r
    | _ => .ok "Error: Square root operation requires exactly one number"
  else
    .ok ("Error: Unknown operation \x27" ++ operation ++
      "\x27. Supported operations: add, subtract, multiply, divide, power, sqrt")

/-- The float-conversion loop with its inner `except ValueError` arm. -/
def parseFloatsFP : List String → Except String (List FP)
  | [] => .ok []
  | s :: rest =>
      match pyFloatFP? s with
      | none => .error ("Error: \x27" ++ s ++ "\x27 is not a valid number")
      | some d => (parseFloatsFP rest).map (fun ds => d :: ds)

/-- `_calculate_result` on the IEEE binary64 model: validation, float
conversion, the dispatch/formatting `try` block, and the two `except` arms. -/
def calcCoreFP (pw : FP → FP → Except PyErr FP) (operation : String)
    (numbers : List String) : String :=
  if numbers = [] then "Error: No numbers provided for calculation"
  else if operation = "sqrt" ∧ numbers.length < 1 then
    "Error: Square root operation requires at least one number"
  else if operation ≠ "sqrt" ∧ numbers.length < 2 then
    "Error: Need at least two numbers for calculation"
  else if 10 < numbers.length then "Error: Too many numbers provided (maximum 10)"
  else
    match parseFloatsFP numbers with
    | .error msg => msg
    | .ok ds =>
        match calcTryFP pw operation ds with
        | .ok s => s
        | .error .overflow => "Error: Calculation result is too large"
        | .error (.exc m) => "Error: Calculation failed - " ++ m

/-- Running partial sums `a + x₁, a + x₁ + x₂, …`. -/
def prefixSumsAux (a : ℚ) : List ℚ → List ℚ
  | [] => []
  | x :: xs => (a + x) :: prefixSumsAux (a + x) xs

def prefixSumsQ (l : List ℚ) : List ℚ := prefixSumsAux 0 l

/-- Running partial products. -/
def prefixProdsAux (a : ℚ) : List ℚ → List ℚ
  | [] => []
  | x :: xs => (a * x) :: prefixProdsAux (a * x) xs

def prefixProdsQ (l : List ℚ) : List ℚ := prefixProdsAux 1 l

/-- Running partial quotients. -/
def prefixDivsAux (a : ℚ) : List ℚ → List ℚ
  | [] => []
  | x :: xs => (a / x) :: prefixDivsAux (a / x) xs

/-! ### Engine lemmas: every match carries one capture slot per group -/

theorem reMat_caps_length (inp : List Char) :
    ∀ (fuel : Nat) (r : RE) (pos : Nat) (caps : Caps) (pc : Nat × Caps),
      pc ∈ reMat inp fuel r pos caps → pc.2.length = caps.length := by
  intro fuel
  induction fuel with
  | zero => intro r pos caps pc h; simp [reMat] at h
  | succ f ih =>
    intro r pos caps pc h
    cases r with
    | eps =>
        simp only [reMat, List.mem_singleton] at h
        subst h; rfl
    | lit cs =>
        simp only [reMat] at h
        split at h
        · simp only [List.mem_singleton] at h; subst h; rfl
        · simp at h
    | cls c =>
        simp only [reMat] at h
        rcases hg : inp.get? pos with _ | ch <;> rw [hg] at h
        · simp at h
        · by_cases hm : memClass c ch
          · simp [hm] at h; simp [h]
          · simp [hm] at h
    | seq a b =>
        simp only [reMat, List.mem_flatMap] at h
        obtain ⟨pc1, h1, h2⟩ := h
        rw [ih _ _ _ _ h2, ih _ _ _ _ h1]
    | alt a b =>
        simp only [reMat, List.mem_append] at h
        rcases h with h | h
        · exact ih _ _ _ _ h
        · exact ih _ _ _ _ h
    | grp i r0 =>
        simp only [reMat, List.mem_map] at h
        obtain ⟨pc1, h1, h2⟩ := h
        subst h2
        simp only [List.length_set]
        exact ih _ _ _ _ h1
    | bnd =>
        simp only [reMat] at h
        split at h
        · simp only [List.mem_singleton] at h; subst h; rfl
        · simp at h
    | eol =>
        simp only [reMat] at h
        split at h
        · simp only [List.mem_singleton] at h; subst h; rfl
        · simp at h
    | rep lo hi g r0 =>
        cases lo with
        | succ lo0 =>
            simp only [reMat, List.mem_flatMap] at h
            obtain ⟨pc1, h1, h2⟩ := h
            rw [ih _ _ _ _ h2, ih _ _ _ _ h1]
        | zero =>
            have main : ∀ hi2,
                pc ∈ (reMat inp f r0 pos caps).flatMap (fun pc1 =>
                  if pc1.1 = pos then [] else
                    reMat inp f (.rep 0 hi2 g r0) pc1.1 pc1.2) ∨ pc = (pos, caps) →
                pc.2.length = caps.length := by
              intro hi2 hmem
              rcases hmem with hmem | hmem
              · simp only [List.mem_flatMap] at hmem
                obtain ⟨pc1, h1, h2⟩ := hmem
                split at h2
                · simp at h2
                · rw [ih _ _ _ _ h2, ih _ _ _ _ h1]
              · subst hmem; rfl
            cases hi with
            | none =>
                simp only [reMat] at h
                split at h
                · rcases List.mem_append.mp h with h | h
                  · exact main _ (Or.inl h)
                  · rw [List.mem_singleton] at h; exact main none (Or.inr h)
                · rcases List.mem_cons.mp h with h | h
                  · exact main none (Or.inr h)
                  · exact main _ (Or.inl h)
            | some hval =>
                cases hval with
                | zero =>
                    simp only [reMat, List.mem_singleton] at h
                    subst h; rfl
                | succ hv =>
                    simp only [reMat] at h
                    split at h
                    · rcases List.mem_append.mp h with h | h
                      · exact main _ (Or.inl h)
                      · rw [List.mem_singleton] at h; exact main none (Or.inr h)
                    · rcases List.mem_cons.mp h with h | h
                      · exact main none (Or.inr h)
                      · exact main _ (Or.inl h)

theorem searchFrom_caps_length (inp : List Char) (fuel : Nat) (r : RE) :
    ∀ (k pos : Nat) (caps : Caps), searchFrom inp fuel r k pos = some caps →
      caps.length = (initCaps r).length := by
  intro k
  induction k with
  | zero => intro pos caps h; simp [searchFrom] at h
  | succ k2 ih =>
    intro pos caps h
    simp only [searchFrom] at h
    rcases hm : reMat inp fuel r pos (initCaps r) with _ | ⟨pc, rest⟩ <;> rw [hm] at h
    · exact ih _ _ h
    · simp only [Option.some_inj] at h
      subst h
      exact reMat_caps_length inp fuel r pos (initCaps r) pc (hm ▸ List.mem_cons_self pc rest)

theorem reSearch_caps_length (r : RE) (s : String) (caps : Caps)
    (h : reSearch r s = some caps) : caps.length = numGroups r := by
  have := searchFrom_caps_length s.data (reFuel r s.data) r _ _ _ h
  simpa [initCaps] using this

/-! ### Totality of the pipeline -/

theorem firstRe_mem (u : String) : ∀ (ps : List RE) (p : RE) (m : Caps),
    firstRe u ps = some (p, m) → p ∈ ps ∧ reSearch p u = some m := by
  intro ps
  induction ps with
  | nil => intro p m h; simp [firstRe] at h
  | cons q qs ih =>
    intro p m h
    simp only [firstRe] at h
    rcases hs : reSearch q u with _ | m2 <;> rw [hs] at h
    · obtain ⟨h1, h2⟩ := ih _ _ h
      exact ⟨List.mem_cons_of_mem _ h1, h2⟩
    · simp only [Option.some_inj, Prod.mk.injEq] at h
      obtain ⟨rfl, rfl⟩ := h
      exact ⟨List.mem_cons_self _ _, hs⟩

theorem findPattern_mem (u : String) :
    ∀ (tbl : List (String × List RE)) (ipm : String × RE × Caps),
      findPattern u tbl = some ipm →
      ∃ ps, (ipm.1, ps) ∈ tbl ∧ ipm.2.1 ∈ ps ∧ reSearch ipm.2.1 u = some ipm.2.2 := by
  intro tbl
  induction tbl with
  | nil => intro ipm h; simp [findPattern] at h
  | cons ip rest ih =>
    intro ipm h
    simp only [findPattern] at h
    rcases hf : firstRe u ip.2 with _ | pm <;> rw [hf] at h
    · obtain ⟨ps, h1, h2, h3⟩ := ih _ h
      exact ⟨ps, List.mem_cons_of_mem _ h1, h2, h3⟩
    · simp only [Option.some_inj] at h
      subst h
      obtain ⟨h1, h2⟩ := firstRe_mem u ip.2 pm.1 pm.2 (by rw [hf])
      exact ⟨ip.2, by simp, h1, h2⟩

/-- The number of match groups each intent's pattern-mode extractor may
index (`book_flight` guards all its accesses with length tests). -/
def neededGroupsOk (intent : String) (n : Nat) : Bool :=
  if intent = "calculate" ∨ intent = "weather" ∨ intent = "search" then 1 ≤ n
  else if intent = "send_email" ∨ intent = "schedule_meeting" then 2 ≤ n
  else true

/-- Every pattern in the table provides the groups its intent's extractor
indexes. -/
theorem tableGroupsOk :
    (intentPatterns.all (fun ip => ip.2.all (fun p => neededGroupsOk ip.1 (numGroups p)))) =
      true := by decide

theorem pyIndex_ok (g : Caps) (i : Nat) (h : i < g.length) :
    pyIndex g i = Except.ok (g.get ⟨i, h⟩) := dif_pos h

theorem exceptBind_ok {e a b : Type} (x : a) (f : a → Except e b) :
    (Except.ok x >>= f) = f x := rfl

theorem exceptPureBind {e a b : Type} (x : a) (f : a → Except e b) :
    ((pure x : Except e a) >>= f) = f x := rfl

theorem ite_pure_ok {e a : Type} (P : Prop) [Decidable P] (x y : a) :
    ∃ m, (if P then (pure x : Except e a) else pure y) = Except.ok m := by
  split
  · exact ⟨x, rfl⟩
  · exact ⟨y, rfl⟩

theorem extract_ok (intent : String) (groups : Caps) (u : String)
    (h : neededGroupsOk intent groups.length = true) :
    ∃ m, extractInfoFromMatch intent groups u = Except.ok m := by
  unfold extractInfoFromMatch
  by_cases hc : intent = "calculate"
  · rw [if_pos hc]
    have h1 : 0 < groups.length := by
      rw [hc] at h; simpa [neededGroupsOk] using h
    by_cases h2 : 2 ≤ groups.length
    · rw [if_pos h2, pyIndex_ok groups 1 (by omega), exceptBind_ok, exceptPureBind]
      beta_reduce
      split
      · exact ⟨_, rfl⟩
      · rw [pyIndex_ok groups 0 (by omega), exceptBind_ok]
        exact ite_pure_ok _ _ _
    · rw [if_neg h2, exceptPureBind]
      beta_reduce
      split
      · exact ⟨_, rfl⟩
      · rw [pyIndex_ok groups 0 (by omega), exceptBind_ok]
        exact ite_pure_ok _ _ _
  · rw [if_neg hc]
    by_cases hw : intent = "weather"
    · rw [if_pos hw]
      have h1 : 0 < groups.length := by
        rw [hw] at h; simpa [neededGroupsOk] using h
      rw [pyIndex_ok groups 0 (by omega), exceptBind_ok]
      exact ⟨_, rfl⟩
    · rw [if_neg hw]
      by_cases hb : intent = "book_flight"
      · rw [if_pos hb]
        by_cases h3 : 3 ≤ groups.length
        · rw [if_pos h3, pyIndex_ok groups 0 (by omega), exceptBind_ok,
            pyIndex_ok groups 1 (by omega), exceptBind_ok,
            pyIndex_ok groups 2 (by omega), exceptBind_ok]
          exact ⟨_, rfl⟩
        · rw [if_neg h3]
          by_cases h4 : 2 ≤ groups.length
          · rw [if_pos h4, pyIndex_ok groups 0 (by omega), exceptBind_ok,
              pyIndex_ok groups 1 (by omega), exceptBind_ok]
            exact ⟨_, rfl⟩
          · rw [if_neg h4]
            exact ⟨_, rfl⟩
      · rw [if_neg hb]
        by_cases he : intent = "send_email"
        · rw [if_pos he]
          have h1 : 2 ≤ groups.length := by
            rw [he] at h; simpa [neededGroupsOk] using h
          rw [pyIndex_ok groups 0 (by omega), exceptBind_ok,
            pyIndex_ok groups 1 (by omega), exceptBind_ok]
          exact ⟨_, rfl⟩
        · rw [if_neg he]
          by_cases hs : intent = "search"
          · rw [if_pos hs]
            have h1 : 0 < groups.length := by
              rw [hs] at h; simpa [neededGroupsOk] using h
            rw [pyIndex_ok groups 0 (by omega), exceptBind_ok]
            exact ⟨_, rfl⟩
          · rw [if_neg hs]
            by_cases hm : intent = "schedule_meeting"
            · rw [if_pos hm]
              have h1 : 2 ≤ groups.length := by
                rw [hm] at h; simpa [neededGroupsOk] using h
              rw [pyIndex_ok groups 0 (by omega), exceptBind_ok,
                pyIndex_ok groups 1 (by omega), exceptBind_ok]
              exact ⟨_, rfl⟩
            · rw [if_neg hm]
              exact ⟨_, rfl⟩

theorem parseIntentE_ok (u : String) : ∃ r, parseIntentE u = Except.ok r := by
  unfold parseIntentE
  simp only []
  rcases hfp : findPattern (pyNormalize u) intentPatterns with _ | ipm
  · rcases hk : detectIntentByKeywords (pyNormalize u) with _ | ki
    · exact ⟨_, rfl⟩
    · exact ⟨_, rfl⟩
  · obtain ⟨ps, hmem, hpmem, hsearch⟩ := findPattern_mem _ _ _ hfp
    have hlen : ipm.2.2.length = numGroups ipm.2.1 := reSearch_caps_length _ _ _ hsearch
    have hok : neededGroupsOk ipm.1 (numGroups ipm.2.1) = true := by
      have h1 := tableGroupsOk
      rw [List.all_eq_true] at h1
      have h2 := h1 _ hmem
      rw [List.all_eq_true] at h2
      exact h2 _ hpmem
    obtain ⟨m, hm⟩ := extract_ok ipm.1 ipm.2.2 (pyNormalize u) (by rw [hlen]; exact hok)
    simp only [hm, exceptBind_ok]
    exact ⟨_, rfl⟩

theorem processInputE_ok (u : String) : ∃ r, processInputE u = Except.ok r := by
  obtain ⟨res, hres⟩ := parseIntentE_ok u
  unfold processInputE
  rw [hres, exceptBind_ok]
  exact ⟨_, rfl⟩

/-! ### Helper lemmas for the arithmetic evaluator -/

theorem parseAllNumbers_error (tok : String) (htok : pyFloat? tok = none) :
    ∀ (good rest : List String), (∀ g ∈ good, (pyFloat? g).isSome) →
      parseAllNumbers (good ++ tok :: rest) = Except.error tok := by
  intro good
  induction good with
  | nil =>
      intro rest _
      simp [parseAllNumbers, htok]
  | cons g gs ih =>
      intro rest hall
      have hg : (pyFloat? g).isSome := hall g (by simp)
      rcases ho : pyFloat? g with _ | q
      · rw [ho] at hg; simp at hg
      · simp only [List.cons_append, parseAllNumbers, ho, List.append_eq]
        rw [ih rest (fun x hx => hall x (by simp [hx]))]

theorem parseAllNumbers_length :
    ∀ (numbers : List String) (vs : List ℚ),
      parseAllNumbers numbers = Except.ok vs → vs.length = numbers.length := by
  intro numbers
  induction numbers with
  | nil => intro vs h; simp [parseAllNumbers] at h; simp [← h]
  | cons t ts ih =>
      intro vs h
      simp only [parseAllNumbers] at h
      rcases ho : pyFloat? t with _ | q <;> rw [ho] at h
      · simp at h
      · rcases hr : parseAllNumbers ts with e | vs2 <;> rw [hr] at h
        · simp at h
        · simp only [Except.ok.injEq] at h
          subst h
          simp [ih vs2 hr]

theorem strData_append (a b : String) : (a ++ b).data = a.data ++ b.data := rfl

/-- Every formatted calculation result contains the character `=`; the fixed
error strings do not, so a formatted result is never one of them. -/
theorem formatCalcResult_hasEq (op : String) (vs : List ℚ) (v : ℚ) :
    '=' ∈ (formatCalcResult op vs v).data := by
  unfold formatCalcResult
  split <;>
  · rw [strData_append, strData_append]
    refine List.mem_append_left _ (List.mem_append_right _ ?_)
    decide

theorem ratSqrt_exact {v r : ℚ} (hr : 0 ≤ r) (hv : r * r = v) : ratSqrt? v = some r := by
  have hnum : v.num.natAbs = r.num.natAbs * r.num.natAbs := by
    rw [← hv, Rat.mul_self_num, Int.natAbs_mul]
  have hden : v.den = r.den * r.den := by
    rw [← hv, Rat.mul_self_den]
  have hr0 : (0 : ℤ) ≤ r.num := Rat.num_nonneg.mpr hr
  unfold ratSqrt?
  rw [hnum, hden, Nat.sqrt_eq, Nat.sqrt_eq]
  have hcand : ((r.num.natAbs : ℚ) / (r.den : ℚ)) = r := by
    calc ((r.num.natAbs : ℚ) / (r.den : ℚ))
        = (((r.num.natAbs : ℤ) : ℚ) / (r.den : ℚ)) := by rw [Int.cast_natCast]
      _ = ((r.num : ℚ) / (r.den : ℚ)) := by rw [Int.natAbs_of_nonneg hr0]
      _ = r := Rat.num_div_den r
  rw [hcand, if_pos hv]

/-- The `Nat.pow`-based evaluator computes the monoid power. -/
theorem ratPowN_eq (b : ℚ) (m : ℕ) : ratPowN b m = b ^ m := by
  have hpow : b ^ m = ((b.num : ℚ)) ^ m / ((b.den : ℚ)) ^ m := by
    conv_lhs => rw [← Rat.num_div_den b]
    rw [div_pow]
  have hden : ((b.den ^ m : ℕ) : ℚ) = ((b.den : ℚ)) ^ m := by push_cast; ring
  unfold ratPowN
  by_cases hneg : b.num < 0
  · have hz : ((b.num.natAbs : ℤ)) = -b.num := Int.ofNat_natAbs_of_nonpos (le_of_lt hneg)
    have hq : ((b.num.natAbs : ℕ) : ℚ) = -(b.num : ℚ) := by
      rw [← Int.cast_natCast, hz, Int.cast_neg]
    by_cases hm : m % 2 = 1
    · rw [if_pos ⟨hneg, hm⟩, hpow, hden, Nat.cast_pow, hq,
        Odd.neg_pow (Nat.odd_iff.mpr hm), neg_div, neg_neg]
    · rw [if_neg (by tauto), hpow, hden, Nat.cast_pow, hq,
        Even.neg_pow (Nat.even_iff.mpr (by omega))]
  · have hq : ((b.num.natAbs : ℕ) : ℚ) = (b.num : ℚ) := by
      rw [← Int.cast_natCast, Int.natAbs_of_nonneg (not_lt.mp hneg)]
    rw [if_neg (by tauto), hpow, hden, Nat.cast_pow, hq]

/-- The `Nat.pow`-based evaluator computes the integer power. -/
theorem ratZPow_eq (b : ℚ) (n : ℤ) : ratZPow b n = b ^ n := by
  unfold ratZPow
  by_cases h : 0 ≤ n
  · rw [if_pos h, ratPowN_eq, ← zpow_natCast, Int.toNat_of_nonneg h]
  · rw [if_neg h, ratPowN_eq, ← zpow_natCast,
      Int.toNat_of_nonneg (by omega : (0:ℤ) ≤ -n), zpow_neg, inv_inv]

/-! ### The claims -/

/-- C9: totality of the pipeline — for every input string the pipeline
returns a normal result value; the `Except` layer carrying the one
Python-raisable failure (tuple `IndexError` during pattern-mode slot
extraction) never fires, so every failure is represented inside the
returned `ExecResult` shape. -/
theorem claim_C9_totality (u : String) : ∃ r, processInputE u = Except.ok r :=
  processInputE_ok u

/-- C1: `process_input "calculate 15 plus 27"` classifies intent
`calculate` by pattern with confidence 0.9, decides `call_api`, and the
calculator returns status `success` with result exactly
`"15.0 + 27.0 = 42"`. -/
theorem claim_C1_endToEnd :
    ∃ out, processInputE "calculate 15 plus 27" = Except.ok out ∧
      out.intentAnalysis.intent = "calculate" ∧
      out.intentAnalysis.detectionMethod = "pattern" ∧
      out.intentAnalysis.confidence = 9 / 10 ∧
      out.actionTaken = "call_api" ∧
      out.result = ExecResult.apiResp "calculator" "15.0 + 27.0 = 42" "success" none
        (some [("operation", Value.str "add"), ("numbers", Value.list ["15", "27"])]) := by
  with_unfolding_all exact ⟨_, rfl, rfl, rfl, rfl, rfl, rfl⟩

/-- C2 counterexample: at `power [10, 400]` the computation overflows
(`pyPow` reports `OverflowError`), yet the calculator endpoint labels the
failure `calculation_error`, not `api_error` as the claim states: the
overflow is caught inside `_calculate_result` and surfaces as an
`"Error:"`-prefixed string, which `_call_calculator_api` classifies as a
calculation error. -/
theorem claim_C2_counterexample :
    pyPow 10 400 = Except.error CalcErr.overflow ∧
    callCalculatorApi [("operation", Value.str "power"), ("numbers", Value.list ["10", "400"])] =
      ExecResult.apiResp "calculator" "Error: Calculation result is too large" "error"
        (some "calculation_error")
        (some [("operation", Value.str "power"), ("numbers", Value.list ["10", "400"])]) ∧
    ("calculation_error" : String) ≠ "api_error" := by
  refine ⟨by with_unfolding_all rfl, by with_unfolding_all rfl, by decide⟩

/-- C2 (amended): when the computation of `power` overflows, the calculator
endpoint returns an `ExecResult` with status `"error"` wrapping the message
`"Error: Calculation result is too large"`, with error kind
`calculation_error` (the `api_error` kind is reserved for exceptions
escaping `_calculate_result`, which cannot happen); no exception
propagates. -/
theorem claim_C2_overflowKind (s t : String) (b e : ℚ)
    (hs : pyFloat? s = some b) (ht : pyFloat? t = some e)
    (hof : pyPow b e = Except.error CalcErr.overflow) :
    callCalculatorApi [("operation", Value.str "power"), ("numbers", Value.list [s, t])] =
      ExecResult.apiResp "calculator" "Error: Calculation result is too large" "error"
        (some "calculation_error")
        (some [("operation", Value.str "power"), ("numbers", Value.list [s, t])]) := by
  have h1 : calculateResult
      [("operation", Value.str "power"), ("numbers", Value.list [s, t])] =
      calcCore "power" [s, t] := rfl
  have h2 : parseAllNumbers [s, t] = Except.ok [b, e] := by
    simp [parseAllNumbers, hs, ht]
  have h3 : calcCore "power" [s, t] = "Error: Calculation result is too large" := by
    simp only [calcCore, h2, calcCompute, hof, calcErrMessage]
    rfl
  unfold callCalculatorApi
  rw [h1, h3]
  rfl

theorem claim_C2_overflowKind_witness :
    callCalculatorApi [("operation", Value.str "power"), ("numbers", Value.list ["10", "400"])] =
      ExecResult.apiResp "calculator" "Error: Calculation result is too large" "error"
        (some "calculation_error")
        (some [("operation", Value.str "power"), ("numbers", Value.list ["10", "400"])]) :=
  claim_C2_overflowKind "10" "400" 10 400 (by with_unfolding_all rfl)
    (by with_unfolding_all rfl) (by with_unfolding_all rfl)

/-- C3: the validation checks of `_calculate_result` fire in priority order —
empty list first (also for `sqrt`, whose own minimum check can never fire),
then the generic minimum operand count, then the >10 limit (for every
operation and regardless of the tokens, so any 11-element list errors before
any operand is parsed), then per-token decimal parsing naming the first bad
token, and only then the operation-specific exact arity. -/
theorem claim_C3_validationOrder (operation : String) (numbers : List String) :
    (numbers = [] → calcCore operation numbers = "Error: No numbers provided for calculation") ∧
    (operation = "sqrt" → numbers = [] →
      calcCore operation numbers = "Error: No numbers provided for calculation") ∧
    (numbers ≠ [] → operation ≠ "sqrt" → numbers.length < 2 →
      calcCore operation numbers = "Error: Need at least two numbers for calculation") ∧
    (10 < numbers.length →
      calcCore operation numbers = "Error: Too many numbers provided (maximum 10)") ∧
    (∀ good tok rest, numbers = good ++ tok :: rest →
      (operation = "sqrt" ∨ 2 ≤ numbers.length) → numbers.length ≤ 10 →
      (∀ g ∈ good, (pyFloat? g).isSome) → pyFloat? tok = none →
      calcCore operation numbers = "Error: \x27" ++ tok ++ "\x27 is not a valid number") ∧
    (∀ vs, parseAllNumbers numbers = Except.ok vs → numbers.length ≤ 10 →
      (operation = "power" → 3 ≤ numbers.length →
        calcCore operation numbers = "Error: Power operation requires exactly two numbers") ∧
      (operation = "sqrt" → 2 ≤ numbers.length →
        calcCore operation numbers =
          "Error: Square root operation requires exactly one number")) := by
  refine ⟨?c1, ?c2, ?c3, ?c4, ?c5, ?c6⟩
  case c1 =>
    intro h; subst h; rfl
  case c2 =>
    intro _ h; subst h; rfl
  case c3 =>
    intro h1 h2 h3
    rcases numbers with _ | ⟨n, ns⟩
    · simp at h1
    · unfold calcCore
      rw [if_neg (by simp), if_neg (fun hh => h2 hh.1), if_pos ⟨h2, h3⟩]
  case c4 =>
    intro h10
    rcases numbers with _ | ⟨n, ns⟩
    · simp at h10
    · unfold calcCore
      rw [if_neg (by simp), if_neg (fun hh => absurd hh.2 (by omega)),
        if_neg (fun hh => absurd hh.2 (by omega)), if_pos h10]
  case c5 =>
    intro good tok rest heq hmin h10 hgood htok
    subst heq
    have hlen : (good ++ tok :: rest).length = good.length + rest.length + 1 := by
      simp [List.length_append]; omega
    unfold calcCore
    rw [if_neg (by simp), if_neg (fun hh => absurd hh.2 (by omega)),
      if_neg (fun hh => hmin.elim (fun hs => hh.1 hs) (fun hl => absurd hh.2 (by omega))),
      if_neg (by omega), parseAllNumbers_error tok htok good rest hgood]
  case c6 =>
    intro vs hp h10
    have hlvs : vs.length = numbers.length := parseAllNumbers_length numbers vs hp
    constructor
    · intro hop h3len
      subst hop
      rcases numbers with _ | ⟨n, ns⟩
      · simp at h3len
      · have h3 : 3 ≤ ns.length + 1 := by simpa using h3len
        unfold calcCore
        rw [if_neg (by simp), if_neg (by simp), if_neg (fun hh => absurd hh.2 (by omega)),
          if_neg (by omega), hp]
        rcases vs with _ | ⟨a, _ | ⟨b, _ | ⟨c, vr⟩⟩⟩
        · simp only [List.length_nil, List.length_cons] at hlvs; omega
        · simp only [List.length_nil, List.length_cons] at hlvs; omega
        · simp only [List.length_nil, List.length_cons] at hlvs; omega
        · rfl
    · intro hop h2len
      subst hop
      rcases numbers with _ | ⟨n, ns⟩
      · simp at h2len
      · have h2 : 2 ≤ ns.length + 1 := by simpa using h2len
        unfold calcCore
        rw [if_neg (by simp), if_neg (fun hh => absurd hh.2 (by omega)),
          if_neg (fun hh => absurd rfl hh.1), if_neg (by omega), hp]
        rcases vs with _ | ⟨a, _ | ⟨b, vr⟩⟩
        · simp only [List.length_nil, List.length_cons] at hlvs; omega
        · simp only [List.length_nil, List.length_cons] at hlvs; omega
        · rfl

theorem claim_C3_validationOrder_witness :
    calcCore "add" [] = "Error: No numbers provided for calculation" ∧
    calcCore "sqrt" [] = "Error: No numbers provided for calculation" ∧
    calcCore "divide" ["5"] = "Error: Need at least two numbers for calculation" ∧
    calcCore "power" ["x", "x", "x", "x", "x", "x", "x", "x", "x", "x", "x"] =
      "Error: Too many numbers provided (maximum 10)" ∧
    calcCore "power" ["1", "abc", "2"] = "Error: \x27abc\x27 is not a valid number" ∧
    calcCore "power" ["1", "2", "3"] = "Error: Power operation requires exactly two numbers" ∧
    calcCore "sqrt" ["4", "9"] = "Error: Square root operation requires exactly one number" := by
  refine ⟨(claim_C3_validationOrder "add" []).1 rfl,
    (claim_C3_validationOrder "sqrt" []).2.1 rfl rfl,
    (claim_C3_validationOrder "divide" ["5"]).2.2.1 (by simp) (by simp) (by simp),
    (claim_C3_validationOrder "power" _).2.2.2.1 (by simp),
    (claim_C3_validationOrder "power" ["1", "abc", "2"]).2.2.2.2.1 ["1"] "abc" ["2"] rfl
      (by simp) (by simp) ?g1 (by with_unfolding_all rfl),
    ((claim_C3_validationOrder "power" ["1", "2", "3"]).2.2.2.2.2 [1, 2, 3]
      (by with_unfolding_all rfl) (by simp)).1 rfl (by simp),
    ((claim_C3_validationOrder "sqrt" ["4", "9"]).2.2.2.2.2 [4, 9]
      (by with_unfolding_all rfl) (by simp)).2 rfl (by simp)⟩
  intro g hg
  simp only [List.mem_singleton] at hg
  subst hg
  with_unfolding_all rfl

/-- C4: for `divide`, a zero among the operands after the first yields a
`calculation_error` with message `"Error: Cannot divide by zero"` before any
division is performed (the error depends only on the zero membership); with
no zero after the first operand, no divide-by-zero error is reported. -/
theorem claim_C4_divideByZero (numbers : List String) (v : ℚ) (vsTail : List ℚ)
    (h2 : 2 ≤ numbers.length) (h10 : numbers.length ≤ 10)
    (hp : parseAllNumbers numbers = Except.ok (v :: vsTail)) :
    ((0 : ℚ) ∈ vsTail →
      callCalculatorApi [("operation", Value.str "divide"), ("numbers", Value.list numbers)] =
        ExecResult.apiResp "calculator" "Error: Cannot divide by zero" "error"
          (some "calculation_error")
          (some [("operation", Value.str "divide"), ("numbers", Value.list numbers)])) ∧
    ((0 : ℚ) ∉ vsTail →
      calcCore "divide" numbers ≠ "Error: Cannot divide by zero") := by
  have hne : numbers ≠ [] := by
    intro h; subst h; simp at h2
  have hcore : ∀ res, calcCompute "divide" (v :: vsTail) = res →
      calcCore "divide" numbers =
        (match res with
         | Except.error e => calcErrMessage e
         | Except.ok val => formatCalcResult "divide" (v :: vsTail) val) := by
    intro res hres
    subst hres
    rcases numbers with _ | ⟨n, ns⟩
    · simp at h2
    · unfold calcCore
      rw [if_neg (by simp), if_neg (by simp), if_neg (fun hh => absurd hh.2 (by omega)),
        if_neg (by omega), hp]
  constructor
  · intro hmem
    have hcon : vsTail.contains (0 : ℚ) = true := List.elem_eq_true_of_mem hmem
    have hres : calcCompute "divide" (v :: vsTail) = Except.error CalcErr.divZero := by
      unfold calcCompute
      rw [if_neg (by decide), if_neg (by decide), if_neg (by decide), if_pos rfl]
      simp [hcon, hmem]
    have h1 : calcCore "divide" numbers = "Error: Cannot divide by zero" := by
      rw [hcore _ hres]; rfl
    have h0 : calculateResult
        [("operation", Value.str "divide"), ("numbers", Value.list numbers)] =
        calcCore "divide" numbers := rfl
    unfold callCalculatorApi
    rw [h0, h1]
    rfl
  · intro hmem
    have hcon : vsTail.contains (0 : ℚ) = false := by
      rw [Bool.eq_false_iff]
      intro hc
      exact hmem (List.mem_of_elem_eq_true hc)
    have hres : calcCompute "divide" (v :: vsTail) =
        Except.ok (vsTail.foldl (fun a b => a / b) v) := by
      unfold calcCompute
      rw [if_neg (by decide), if_neg (by decide), if_neg (by decide), if_pos rfl]
      simp [hcon, hmem]
    rw [hcore _ hres]
    show ¬ formatCalcResult "divide" (v :: vsTail) (vsTail.foldl (fun a b => a / b) v) =
      "Error: Cannot divide by zero" 
    intro heq
    have := congrArg String.data heq
    rw [show ("Error: Cannot divide by zero").data =
      ("Error: Cannot divide by zero").data from rfl] at this
    have hmemEq := formatCalcResult_hasEq "divide" (v :: vsTail)
      (vsTail.foldl (fun a b => a / b) v)
    rw [this] at hmemEq
    revert hmemEq
    decide

theorem claim_C4_divideByZero_witness :
    callCalculatorApi [("operation", Value.str "divide"), ("numbers", Value.list ["10", "0"])] =
      ExecResult.apiResp "calculator" "Error: Cannot divide by zero" "error"
        (some "calculation_error")
        (some [("operation", Value.str "divide"), ("numbers", Value.list ["10", "0"])]) ∧
    calcCore "divide" ["10", "2"] ≠ "Error: Cannot divide by zero" := by
  constructor
  · exact (claim_C4_divideByZero ["10", "0"] 10 [0] (by simp) (by simp)
      (by with_unfolding_all rfl)).1 (by simp)
  · exact (claim_C4_divideByZero ["10", "2"] 10 [2] (by simp) (by simp)
      (by with_unfolding_all rfl)).2 (by norm_num)

/-! ### C5: the IEEE arithmetic evaluator -/

theorem fpAdd_fin (a b : ℚ) : fpAdd (FP.fin a) (FP.fin b) = roundDbl (a + b) := rfl

theorem fpMul_fin (a b : ℚ) (ha : a ≠ 0) (hb : b ≠ 0) :
    fpMul (FP.fin a) (FP.fin b) = roundDbl (a * b) := by
  simp [fpMul, ha, hb]

theorem fpDiv_fin (a b : ℚ) (ha : a ≠ 0) (hb : b ≠ 0) :
    fpDiv (FP.fin a) (FP.fin b) = roundDbl (a / b) := by
  simp [fpDiv, ha, hb]

theorem foldlAdd_eq (l : List ℚ) : ∀ a : ℚ, l.foldl (· + ·) a = a + l.sum := by
  induction l with
  | nil => intro a; simp
  | cons x xs ih => intro a; rw [List.foldl_cons, ih, List.sum_cons]; ring

theorem foldlMul_eq (l : List ℚ) : ∀ a : ℚ, l.foldl (· * ·) a = a * l.prod := by
  induction l with
  | nil => intro a; simp
  | cons x xs ih => intro a; rw [List.foldl_cons, ih, List.prod_cons]; ring

/-- IEEE addition folded over exactly representable partial sums is exact. -/
theorem fpAddFold_exact (l : List ℚ) : ∀ a : ℚ,
    (∀ p ∈ prefixSumsAux a l, roundDbl p = FP.fin p) →
    (l.map FP.fin).foldl fpAdd (FP.fin a) = FP.fin (l.foldl (· + ·) a) := by
  induction l with
  | nil => intro a _; rfl
  | cons x xs ih =>
      intro a h
      rw [List.map_cons, List.foldl_cons, fpAdd_fin,
        h (a + x) (show (a + x) ∈ (a + x) :: prefixSumsAux (a + x) xs from
          List.mem_cons_self _ _),
        List.foldl_cons]
      exact ih (a + x) (fun p hp => h p
        (show p ∈ (a + x) :: prefixSumsAux (a + x) xs from List.mem_cons_of_mem _ hp))

/-- IEEE multiplication folded over exactly representable nonzero partial
products is exact. -/
theorem fpMulFold_exact (l : List ℚ) : ∀ a : ℚ, a ≠ 0 → (∀ x ∈ l, x ≠ (0 : ℚ)) →
    (∀ p ∈ prefixProdsAux a l, roundDbl p = FP.fin p) →
    (l.map FP.fin).foldl fpMul (FP.fin a) = FP.fin (l.foldl (· * ·) a) := by
  induction l with
  | nil => intro a _ _ _; rfl
  | cons x xs ih =>
      intro a ha hl h
      rw [List.map_cons, List.foldl_cons,
        fpMul_fin a x ha (hl x (List.mem_cons_self _ _)),
        h (a * x) (show (a * x) ∈ (a * x) :: prefixProdsAux (a * x) xs from
          List.mem_cons_self _ _),
        List.foldl_cons]
      exact ih (a * x) (mul_ne_zero ha (hl x (List.mem_cons_self _ _)))
        (fun y hy => hl y (List.mem_cons_of_mem _ hy))
        (fun p hp => h p
          (show p ∈ (a * x) :: prefixProdsAux (a * x) xs from List.mem_cons_of_mem _ hp))

/-- IEEE division folded over exactly representable nonzero partial
quotients is exact. -/
theorem fpDivFold_exact (l : List ℚ) : ∀ a : ℚ, a ≠ 0 → (∀ x ∈ l, x ≠ (0 : ℚ)) →
    (∀ p ∈ prefixDivsAux a l, roundDbl p = FP.fin p) →
    (l.map FP.fin).foldl fpDiv (FP.fin a) = FP.fin (l.foldl (· / ·) a) := by
  induction l with
  | nil => intro a _ _ _; rfl
  | cons x xs ih =>
      intro a ha hl h
      rw [List.map_cons, List.foldl_cons,
        fpDiv_fin a x ha (hl x (List.mem_cons_self _ _)),
        h (a / x) (show (a / x) ∈ (a / x) :: prefixDivsAux (a / x) xs from
          List.mem_cons_self _ _),
        List.foldl_cons]
      exact ih (a / x) (div_ne_zero ha (hl x (List.mem_cons_self _ _)))
        (fun y hy => hl y (List.mem_cons_of_mem _ hy))
        (fun p hp => h p
          (show p ∈ (a / x) :: prefixDivsAux (a / x) xs from List.mem_cons_of_mem _ hp))

/-- When every partial sum but the last is representable and the exact total
rounds past the double range, the IEEE fold is the infinity. -/
theorem fpAddFold_inf (l : List ℚ) : ∀ a : ℚ, l ≠ [] →
    (∀ p ∈ (prefixSumsAux a l).dropLast, roundDbl p = FP.fin p) →
    roundDbl (l.foldl (· + ·) a) = FP.inf →
    (l.map FP.fin).foldl fpAdd (FP.fin a) = FP.inf := by
  induction l with
  | nil => intro a h; exact absurd rfl h
  | cons x xs ih =>
      intro a _ h hof
      rcases xs with _ | ⟨y, ys⟩
      · rw [List.map_cons, List.map_nil, List.foldl_cons, List.foldl_nil, fpAdd_fin]
        exact hof
      · rw [List.map_cons, List.foldl_cons, fpAdd_fin,
          h (a + x) (show (a + x) ∈ (a + x) :: (prefixSumsAux (a + x) (y :: ys)).dropLast
            from List.mem_cons_self _ _)]
        exact ih (a + x) (by simp)
          (fun p hp => h p
            (show p ∈ (a + x) :: (prefixSumsAux (a + x) (y :: ys)).dropLast from
              List.mem_cons_of_mem _ hp))
          hof

theorem parseFloatsFP_ok {ss : List String} {vs : List ℚ}
    (h : List.Forall₂ (fun s v => pyFloatFP? s = some (FP.fin v)) ss vs) :
    parseFloatsFP ss = Except.ok (vs.map FP.fin) := by
  induction h with
  | nil => rfl
  | @cons a b as bs hsv _ ih =>
      simp only [parseFloatsFP]
      rw [hsv, ih]
      rfl

theorem digitChar_mem (n : Nat) : digitChar n ∈ "0123456789".data := by
  unfold digitChar
  rcases Nat.lt_or_ge n 10 with h | h
  · interval_cases n <;> decide
  · rw [List.getD_eq_default _ _ (by simpa using h)]
    decide

theorem natDecAux_mem : ∀ (fuel n : Nat) (c : Char),
    c ∈ natDecAux fuel n → c ∈ "0123456789".data := by
  intro fuel
  induction fuel with
  | zero => intro n c h; simp [natDecAux] at h
  | succ fuel ih =>
      intro n c h
      rw [natDecAux] at h
      by_cases hn : n < 10
      · rw [if_pos hn] at h
        rcases List.mem_singleton.mp h with rfl
        exact digitChar_mem n
      · rw [if_neg hn] at h
        rcases List.mem_append.mp h with h2 | h2
        · exact ih (n / 10) c h2
        · rcases List.mem_singleton.mp h2 with rfl
          exact digitChar_mem (n % 10)

/-- The integer rendering carries no decimal point: the integral branch of
the formatter prints with no fractional part. -/
theorem intRepr_no_dot (t : ℤ) : '.' ∉ (intRepr t).data := by
  intro h
  unfold intRepr at h
  rw [strData_append] at h
  rcases List.mem_append.mp h with h2 | h2
  · rcases eq_or_ne (t < 0 : Prop) True with _ | _ <;> revert h2 <;> split <;> decide
  · have := natDecAux_mem _ _ _ h2
    revert this
    decide

/-- The boolean `result == int(result)` test holds exactly when the finite
value equals the cast of the integer. -/
theorem fpEqIntB_iff (q : ℚ) (t : ℤ) : fpEqIntB (FP.fin q) t = true ↔ q = (t : ℚ) := by
  show (q.den == 1 && q.num == t) = true ↔ _
  rw [Bool.and_eq_true, beq_iff_eq, beq_iff_eq]
  constructor
  · rintro ⟨hd, hn⟩
    rw [← Rat.num_div_den q, hd, hn]
    simp
  · rintro rfl
    exact ⟨Rat.den_intCast t, Rat.num_intCast t⟩

theorem fmt_fin_int (e : String) (q : ℚ) (hq : q = (truncQ q : ℚ)) :
    fmtResultFP e (FP.fin q) = Except.ok (e ++ " = " ++ intRepr (truncQ q)) := by
  unfold fmtResultFP
  rw [show fpInt (FP.fin q) = Except.ok (truncQ q) from rfl, exceptBind_ok,
    if_pos ((fpEqIntB_iff q (truncQ q)).mpr hq)]
  rfl

theorem fmt_fin_round (e : String) (q : ℚ) (hq : q ≠ (truncQ q : ℚ)) :
    fmtResultFP e (FP.fin q) = Except.ok (e ++ " = " ++ fpRepr (fpRound6 (FP.fin q))) := by
  unfold fmtResultFP
  rw [show fpInt (FP.fin q) = Except.ok (truncQ q) from rfl, exceptBind_ok,
    if_neg (fun hb => hq ((fpEqIntB_iff q (truncQ q)).mp hb))]
  rfl

/-- C5 counterexample: the original claim promises the rendered sum for
every validated operand list, but on `add ["1e308", "1e308"]` the program
errors instead — `float("1e308")` is the double `5010420900022432·2^971`,
the IEEE sum of that double with itself overflows to infinity, `int(inf)`
raises `OverflowError`, and `_calculate_result` returns
`"Error: Calculation result is too large"`, a string rendering no sum at
all (it does not even contain the `=` of a rendered result). -/
theorem claim_C5_counterexample :
    calcCoreFP fpPowModel "add" ["1e308", "1e308"] =
      "Error: Calculation result is too large" ∧
    pyFloatFP? "1e308" = some (FP.fin ((5010420900022432 : ℚ) * ((2 ^ 971 : ℕ) : ℚ))) ∧
    fpAdd (FP.fin ((5010420900022432 : ℚ) * ((2 ^ 971 : ℕ) : ℚ)))
        (FP.fin ((5010420900022432 : ℚ) * ((2 ^ 971 : ℕ) : ℚ))) = FP.inf ∧
    ('=' ∉ "Error: Calculation result is too large".data) := by
  refine ⟨by with_unfolding_all rfl, by with_unfolding_all rfl,
    by with_unfolding_all rfl, by decide⟩

/-- C5 (amended): operands are converted by `float()` to nearest binary64
doubles and the evaluator computes IEEE arithmetic on them — add is the
correctly rounded left fold of addition over the operands (hence the exact
sum whenever every partial sum is representable), subtract the first
operand minus the folded sum of the rest, multiply the rounded product
fold, divide the rounded successive quotient left to right, power exactly
the platform pow applied to the two operands and sqrt the platform pow at
exponent `0.5` behind the sign check; an infinite value (an overflowed
sum) surfaces as `"Error: Calculation result is too large"` through the
`int()` conversion rather than as a rendered result; a finite result is
rendered without a fractional part precisely when it equals its integer
truncation and otherwise as `round(·, 6)` in shortest-repr form. -/
theorem claim_C5_ieeeSemantics :
    (∀ l : List ℚ, (∀ p ∈ prefixSumsQ l, roundDbl p = FP.fin p) →
        (l.map FP.fin).foldl fpAdd (FP.fin 0) = FP.fin l.sum) ∧
    (∀ (d0 : ℚ) (l : List ℚ), (∀ p ∈ prefixSumsQ l, roundDbl p = FP.fin p) →
        roundDbl (d0 - l.sum) = FP.fin (d0 - l.sum) →
        fpSub (FP.fin d0) ((l.map FP.fin).foldl fpAdd (FP.fin 0)) = FP.fin (d0 - l.sum)) ∧
    (∀ l : List ℚ, (∀ x ∈ l, x ≠ (0 : ℚ)) →
        (∀ p ∈ prefixProdsQ l, roundDbl p = FP.fin p) →
        (l.map FP.fin).foldl fpMul (FP.fin 1) = FP.fin l.prod) ∧
    (∀ (d0 : ℚ) (l : List ℚ), d0 ≠ 0 → (∀ x ∈ l, x ≠ (0 : ℚ)) →
        (∀ p ∈ prefixDivsAux d0 l, roundDbl p = FP.fin p) →
        (l.map FP.fin).foldl fpDiv (FP.fin d0) = FP.fin (l.foldl (· / ·) d0)) ∧
    (∀ (pw : FP → FP → Except PyErr FP) (a b r : FP), pw a b = Except.ok r →
        calcTryFP pw "power" [a, b] =
          fmtResultFP (joinSep " ^ " ([a, b].map fpRepr)) r) ∧
    (∀ (pw : FP → FP → Except PyErr FP) (a r : FP), fpLtZero a = false →
        pw a (FP.fin (1 / 2)) = Except.ok r →
        calcTryFP pw "sqrt" [a] = fmtResultFP ("√(" ++ fpRepr a ++ ")") r) ∧
    (∀ (e : String) (q : ℚ),
        (q = (truncQ q : ℚ) →
          fmtResultFP e (FP.fin q) = Except.ok (e ++ " = " ++ intRepr (truncQ q)) ∧
          '.' ∉ (intRepr (truncQ q)).data) ∧
        (q ≠ (truncQ q : ℚ) →
          fmtResultFP e (FP.fin q) =
            Except.ok (e ++ " = " ++ fpRepr (fpRound6 (FP.fin q))))) ∧
    (∀ (pw : FP → FP → Except PyErr FP) (ss : List String) (vs : List ℚ),
        List.Forall₂ (fun s v => pyFloatFP? s = some (FP.fin v)) ss vs →
        2 ≤ ss.length → ss.length ≤ 10 →
        (∀ p ∈ (prefixSumsQ vs).dropLast, roundDbl p = FP.fin p) →
        roundDbl vs.sum = FP.inf →
        calcCoreFP pw "add" ss = "Error: Calculation result is too large") := by
  refine ⟨?_, ?_, ?_, ?_, ?_, ?_, ?_, ?_⟩
  · intro l h
    rw [fpAddFold_exact l 0 h, foldlAdd_eq, zero_add]
  · intro d0 l h hrep
    rw [fpAddFold_exact l 0 h, foldlAdd_eq, zero_add]
    show fpAdd (FP.fin d0) (fpNeg (FP.fin l.sum)) = FP.fin (d0 - l.sum)
    rcases eq_or_ne l.sum 0 with h0 | h0
    · rw [h0, show fpNeg (FP.fin 0) = FP.nzero from by simp [fpNeg]]
      rw [show fpAdd (FP.fin d0) FP.nzero = FP.fin d0 from rfl, h0] at *
      rw [sub_zero]
    · rw [show fpNeg (FP.fin l.sum) = FP.fin (-l.sum) from by simp [fpNeg, h0], fpAdd_fin,
        ← sub_eq_add_neg]
      exact hrep
  · intro l hl h
    rw [fpMulFold_exact l 1 one_ne_zero hl h, foldlMul_eq, one_mul]
  · intro d0 l h0 hl h
    exact fpDivFold_exact l d0 h0 hl h
  · intro pw a b r hpw
    unfold calcTryFP
    rw [if_neg (by decide), if_neg (by decide), if_neg (by decide), if_neg (by decide),
      if_pos rfl]
    show (pw a b >>= fun r2 => fmtResultFP (joinSep " ^ " ([a, b].map fpRepr)) r2) = _
    rw [hpw, exceptBind_ok]
  · intro pw a r hneg hpw
    unfold calcTryFP
    rw [if_neg (by decide), if_neg (by decide), if_neg (by decide), if_neg (by decide),
      if_neg (by decide), if_pos rfl]
    show (if fpLtZero a = true then
        Except.ok "Error: Cannot calculate square root of negative number"
      else pw a (FP.fin (1 / 2)) >>= fun r2 => fmtResultFP ("√(" ++ fpRepr a ++ ")") r2) = _
    rw [hneg, if_neg (by decide), hpw, exceptBind_ok]
  · intro e q
    exact ⟨fun hq => ⟨fmt_fin_int e q hq, intRepr_no_dot _⟩, fun hq => fmt_fin_round e q hq⟩
  · intro pw ss vs hpar h2 h10 hpre hof
    have hlen := List.Forall₂.length_eq hpar
    have hne : ss ≠ [] := by
      intro hnil
      rw [hnil] at h2
      simp at h2
    have hvne : vs ≠ [] := by
      intro hnil
      rw [hnil] at hlen
      have h0 : ss.length = 0 := by simpa using hlen
      omega
    have hinf : (vs.map FP.fin).foldl fpAdd (FP.fin 0) = FP.inf := by
      refine fpAddFold_inf vs 0 hvne hpre ?_
      rw [foldlAdd_eq, zero_add]
      exact hof
    have htry : calcTryFP pw "add" (vs.map FP.fin) = Except.error PyErr.overflow := by
      unfold calcTryFP
      rw [if_pos rfl, hinf]
      rfl
    unfold calcCoreFP
    rw [if_neg hne, if_neg (by rintro ⟨hadd, -⟩; exact absurd hadd (by decide)),
      if_neg (by rintro ⟨-, hlt⟩; omega), if_neg (by omega), parseFloatsFP_ok hpar]
    show (match calcTryFP pw "add" (vs.map FP.fin) with
      | Except.ok s => s
      | Except.error PyErr.overflow => "Error: Calculation result is too large"
      | Except.error (PyErr.exc m) => "Error: Calculation failed - " ++ m) =
      "Error: Calculation result is too large"
    rw [htry]

theorem claim_C5_ieeeSemantics_witness :
    ([(15 : ℚ), 27].map FP.fin).foldl fpAdd (FP.fin 0) = FP.fin ([(15 : ℚ), 27].sum) ∧
    calcCoreFP fpPowModel "add" ["8e307", "8e307", "8e307"] =
      "Error: Calculation result is too large" ∧
    calcTryFP fpPowModel "power" [FP.fin 2, FP.fin 10] =
      fmtResultFP (joinSep " ^ " ([FP.fin 2, FP.fin 10].map fpRepr)) (FP.fin 1024) ∧
    calcTryFP fpPowModel "sqrt" [FP.fin 16] =
      fmtResultFP ("√(" ++ fpRepr (FP.fin 16) ++ ")") (FP.fin 4) ∧
    fmtResultFP "15.0 + 27.0" (FP.fin 42) = Except.ok "15.0 + 27.0 = 42" ∧
    calcCoreFP fpPowModel "add" ["15", "27"] = "15.0 + 27.0 = 42" ∧
    calcCoreFP fpPowModel "divide" ["10", "3"] = "10.0 ÷ 3.0 = 3.333333" ∧
    calcCoreFP fpPowModel "sqrt" ["2"] = "√(2.0) = 1.414214" ∧
    calcCoreFP fpPowModel "power" ["2", "10"] = "2.0 ^ 10.0 = 1024" := by
  refine ⟨?_, ?_, ?_, ?_, ?_, ?_, ?_, ?_, ?_⟩
  · exact claim_C5_ieeeSemantics.1 [15, 27] (by with_unfolding_all decide)
  · exact claim_C5_ieeeSemantics.2.2.2.2.2.2.2 fpPowModel ["8e307", "8e307", "8e307"]
      [(8016673440035891 : ℚ) * ((2 ^ 970 : ℕ) : ℚ),
       (8016673440035891 : ℚ) * ((2 ^ 970 : ℕ) : ℚ),
       (8016673440035891 : ℚ) * ((2 ^ 970 : ℕ) : ℚ)]
      (List.Forall₂.cons (by with_unfolding_all rfl)
        (List.Forall₂.cons (by with_unfolding_all rfl)
          (List.Forall₂.cons (by with_unfolding_all rfl) List.Forall₂.nil)))
      (by decide) (by decide)
      (by
        intro p hp
        rcases List.mem_cons.mp hp with rfl | hp2
        · with_unfolding_all rfl
        · rcases List.mem_cons.mp hp2 with rfl | hp3
          · with_unfolding_all rfl
          · exact absurd hp3 (List.not_mem_nil p))
      (by with_unfolding_all rfl)
  · exact claim_C5_ieeeSemantics.2.2.2.2.1 fpPowModel (FP.fin 2) (FP.fin 10) (FP.fin 1024)
      (by with_unfolding_all rfl)
  · exact claim_C5_ieeeSemantics.2.2.2.2.2.1 fpPowModel (FP.fin 16) (FP.fin 4)
      (by with_unfolding_all rfl) (by with_unfolding_all rfl)
  · exact ((claim_C5_ieeeSemantics.2.2.2.2.2.2.1 "15.0 + 27.0" 42).1
      (by with_unfolding_all decide)).1.trans (by with_unfolding_all rfl)
  · with_unfolding_all rfl
  · with_unfolding_all rfl
  · with_unfolding_all rfl
  · with_unfolding_all rfl


/-! ### C8: the completeness checker -/

/-- Claim-side "missing" predicate: the slot is absent from the mapping, a
falsy/empty string, or an empty sequence. -/
def slotMissing (info : SlotMap) (f : String) : Bool :=
  match lookupSlot? info f with
  | none => true
  | some (.str s) => s == ""
  | some (.list l) => l.isEmpty

theorem checkMissing_step (info : SlotMap) (missing : List String) (field : String) :
    (match lookupSlot? info field with
      | none => missing ++ [field]
      | some v =>
          if pyFalsy v then missing ++ [field]
          else match v with
            | .list l => if l.isEmpty then missing ++ [field] else missing
            | _ => missing) =
    missing ++ (if slotMissing info field then [field] else []) := by
  unfold slotMissing
  rcases lookupSlot? info field with _ | v
  · simp
  · rcases v with s | l
    · by_cases h : (s == "") = true
      · simp [pyFalsy, h]
      · simp [pyFalsy, h]
    · by_cases h : l.isEmpty = true
      · simp [pyFalsy, h]
      · simp [pyFalsy, h]

theorem checkMissing_foldl (info : SlotMap) :
    ∀ (required acc : List String),
      required.foldl (fun missing field =>
        match lookupSlot? info field with
        | none => missing ++ [field]
        | some v =>
            if pyFalsy v then missing ++ [field]
            else match v with
              | .list l => if l.isEmpty then missing ++ [field] else missing
              | _ => missing) acc =
      acc ++ required.filter (slotMissing info) := by
  intro required
  induction required with
  | nil => intro acc; simp
  | cons f fs ih =>
      intro acc
      rw [List.foldl_cons, checkMissing_step, ih, List.filter_cons]
      by_cases h : slotMissing info f = true
      · simp [h]
      · simp [h]

/-- C8: for every intent and slot mapping, the completeness check returns
exactly the required fields of the intent that are absent, falsy/empty
strings, or empty sequences, in declared required-field order; an intent
not in the schema reports no missing slots. -/
theorem claim_C8_missingFields (intent : String) (info : SlotMap) :
    checkMissingInfo intent info =
      (((requiredFields.find? (fun p => p.1 == intent)).map (fun p => p.2)).getD []).filter
        (slotMissing info) ∧
    (requiredFields.find? (fun p => p.1 == intent) = none →
      checkMissingInfo intent info = []) := by
  constructor
  · unfold checkMissingInfo
    rcases hf : requiredFields.find? (fun p => p.1 == intent) with _ | p <;> rw [hf]
    · rfl
    · exact checkMissing_foldl info p.2 []
  · intro h
    unfold checkMissingInfo
    rw [h]
    rfl

theorem claim_C8_missingFields_witness :
    checkMissingInfo "calculate" [("operation", Value.str "add"), ("numbers", Value.list [])] =
      ["numbers"] ∧
    checkMissingInfo "teleport" [("x", Value.str "y")] = [] := by
  constructor
  · rw [(claim_C8_missingFields "calculate"
      [("operation", Value.str "add"), ("numbers", Value.list [])]).1]
    rfl
  · exact (claim_C8_missingFields "teleport" [("x", Value.str "y")]).2 rfl

/-! ### C6: pattern-phase priority -/

/-- The (intent, regex) pairs of the pattern table, flattened in declaration
order. -/
def flatPatterns : List (String × RE) :=
  intentPatterns.flatMap (fun ip => ip.2.map (fun p => (ip.1, p)))

theorem firstRe_none (u : String) :
    ∀ ps : List RE, (∀ q ∈ ps, reSearch q u = none) → firstRe u ps = none := by
  intro ps
  induction ps with
  | nil => intro _; rfl
  | cons q qs ih =>
      intro h
      unfold firstRe
      rw [h q (List.mem_cons_self _ _)]
      exact ih (fun q2 hq2 => h q2 (List.mem_cons_of_mem _ hq2))

theorem firstRe_some (u : String) :
    ∀ (ps : List RE) (q : RE),
      ps.find? (fun p2 => (reSearch p2 u).isSome) = some q →
      ∃ m, firstRe u ps = some (q, m) := by
  intro ps
  induction ps with
  | nil => intro q h; simp [List.find?] at h
  | cons q0 qs ih =>
      intro q h
      rcases hs : reSearch q0 u with _ | m <;> simp [List.find?, hs] at h
      · obtain ⟨m, hm⟩ := ih q h
        refine ⟨m, ?_⟩
        unfold firstRe
        rw [hs]
        exact hm
      · subst h
        refine ⟨m, ?_⟩
        unfold firstRe
        rw [hs]

theorem find_map_pair (u : String) (i : String) : ∀ ps : List RE,
    (ps.map (fun p => (i, p))).find? (fun pr => (reSearch pr.2 u).isSome) =
      (ps.find? (fun p => (reSearch p u).isSome)).map (fun p => (i, p)) := by
  intro ps
  induction ps with
  | nil => rfl
  | cons q qs ih =>
      by_cases h : (reSearch q u).isSome = true
      · simp [List.find?, h]
      · simp only [List.map_cons, List.find?, h, Bool.false_eq_true, if_false]
        exact ih

theorem find_append {α : Type} (p : α → Bool) : ∀ l1 l2 : List α,
    (l1 ++ l2).find? p = ((l1.find? p).elim (l2.find? p) (fun a => some a)) := by
  intro l1
  induction l1 with
  | nil => intro l2; simp
  | cons a l ih =>
      intro l2
      by_cases h : p a = true
      · simp [List.find?, h]
      · simp only [List.cons_append, List.find?, h, Bool.false_eq_true, if_false]
        exact ih l2

theorem findPattern_ofFlatFind (u : String) :
    ∀ (tbl : List (String × List RE)) (A : String) (p : RE),
      ((tbl.flatMap (fun ip => ip.2.map (fun q => (ip.1, q)))).find?
        (fun pr => (reSearch pr.2 u).isSome)) = some (A, p) →
      ∃ m, findPattern u tbl = some (A, p, m) := by
  intro tbl
  induction tbl with
  | nil => intro A p h; simp at h
  | cons ip rest ih =>
      intro A p h
      rw [List.flatMap_cons, find_append, find_map_pair] at h
      rcases hf : ip.2.find? (fun q => (reSearch q u).isSome) with _ | q <;> rw [hf] at h
      · simp only [Option.map_none, Option.elim] at h
        obtain ⟨m, hm⟩ := ih A p h
        have hnone := firstRe_none u ip.2 (fun q hq => by
          have h2 := List.find?_eq_none.mp hf q hq
          simpa using h2)
        refine ⟨m, ?_⟩
        unfold findPattern
        rw [hnone]
        exact hm
      · simp only [Option.map_some, Option.elim, Option.some_inj, Prod.mk.injEq] at h
        obtain ⟨rfl, rfl⟩ := h
        obtain ⟨m, hm⟩ := firstRe_some u ip.2 p hf
        refine ⟨m, ?_⟩
        unfold findPattern
        rw [hm]

theorem parseIntentE_pattern (u : String) (ipm : String × RE × Caps)
    (hfp : findPattern (pyNormalize u) intentPatterns = some ipm) :
    ∃ info, parseIntentE u = Except.ok
      { intent := ipm.1, confidence := 9 / 10, extractedInfo := info,
        rawInput := pyNormalize u, detectionMethod := "pattern" } := by
  obtain ⟨ps, hmem, hpmem, hsearch⟩ := findPattern_mem _ _ _ hfp
  have hlen : ipm.2.2.length = numGroups ipm.2.1 := reSearch_caps_length _ _ _ hsearch
  have hok : neededGroupsOk ipm.1 (numGroups ipm.2.1) = true := by
    have h1 := tableGroupsOk
    rw [List.all_eq_true] at h1
    have h2 := h1 _ hmem
    rw [List.all_eq_true] at h2
    exact h2 _ hpmem
  obtain ⟨m, hm⟩ := extract_ok ipm.1 ipm.2.2 (pyNormalize u) (by rw [hlen]; exact hok)
  refine ⟨m, ?_⟩
  unfold parseIntentE
  simp only []
  rw [hfp]
  simp only [hm, exceptBind_ok]
  rfl

/-- C6: pattern-phase priority — if the first (intent, regex) pair in
declaration order whose regex matches the normalized utterance belongs to
intent `A`, the classifier returns intent `A` with confidence 0.9 and
detection method `"pattern"`, regardless of any later pair that also
matches. -/
theorem claim_C6_patternPriority (u A : String) (p : RE)
    (hfirst : flatPatterns.find? (fun pr => (reSearch pr.2 (pyNormalize u)).isSome) =
      some (A, p)) :
    ∃ res, parseIntentE u = Except.ok res ∧ res.intent = A ∧
      res.confidence = 9 / 10 ∧ res.detectionMethod = "pattern" := by
  obtain ⟨m, hm⟩ := findPattern_ofFlatFind (pyNormalize u) intentPatterns A p hfirst
  obtain ⟨info, hinfo⟩ := parseIntentE_pattern u (A, p, m) hm
  exact ⟨_, hinfo, rfl, rfl, rfl⟩

theorem claim_C6_patternPriority_witness :
    ∃ res, parseIntentE "calculate 15 plus 27" = Except.ok res ∧ res.intent = "calculate" ∧
      res.confidence = 9 / 10 ∧ res.detectionMethod = "pattern" :=
  claim_C6_patternPriority "calculate 15 plus 27" "calculate"
    (patternsCalculate.headD RE.eps) (by with_unfolding_all rfl)

/-! ### C10: only ask_for_info and call_api ever execute -/

def schemaIntents : List String :=
  ["calculate", "weather", "book_flight", "send_email", "search", "schedule_meeting"]

theorem foldBest_mem : ∀ (rest : List (String × ℚ)) (cur : String × ℚ),
    foldBest cur rest = cur ∨ foldBest cur rest ∈ rest := by
  intro rest
  induction rest with
  | nil => intro cur; exact Or.inl rfl
  | cons p ps ih =>
      intro cur
      rcases ih (if p.2 > cur.2 then p else cur) with h | h
      · unfold foldBest
        rw [h]
        split
        · exact Or.inr (List.mem_cons_self _ _)
        · exact Or.inl rfl
      · unfold foldBest
        exact Or.inr (List.mem_cons_of_mem _ h)

theorem exceptBind_err {e a b : Type} (x : e) (f : a → Except e b) :
    ((Except.error x : Except e a) >>= f) = Except.error x := rfl

theorem bestIntent_mem : ∀ (scores : List (String × ℚ)) (ki : String),
    (match scores with
     | [] => none
     | s0 :: rest =>
        if (foldBest s0 rest).2 > 0 then some (foldBest s0 rest).1 else none) = some ki →
    ki ∈ scores.map Prod.fst := by
  intro scores ki h
  match scores with
  | [] => exact absurd h (by simp)
  | s0 :: rest =>
      have h2 : (if (foldBest s0 rest).2 > 0 then some (foldBest s0 rest).1 else none) =
          some ki := h
      split at h2
      · simp only [Option.some_inj] at h2
        subst h2
        rcases foldBest_mem rest s0 with h3 | h3
        · rw [h3]; exact List.mem_map.mpr ⟨s0, List.mem_cons_self _ _, rfl⟩
        · exact List.mem_map.mpr ⟨_, List.mem_cons_of_mem _ h3, rfl⟩
      · simp at h2

theorem detectIntent_mem (u : String) (ki : String)
    (h : detectIntentByKeywords u = some ki) :
    ki ∈ (intentKeywords.map Prod.fst) := by
  have h1 : ki ∈ (keywordScores u).map Prod.fst := bestIntent_mem _ _ h
  unfold keywordScores at h1
  rw [List.map_map] at h1
  obtain ⟨q, hq, hq2⟩ := List.mem_map.mp h1
  rw [← hq2]
  exact List.mem_map.mpr ⟨q, hq, rfl⟩

theorem parseIntent_intent_mem (u : String) (r : ClassRes)
    (h : parseIntentE u = Except.ok r) : r.intent ∈ schemaIntents := by
  unfold parseIntentE at h
  simp only [] at h
  rcases hfp : findPattern (pyNormalize u) intentPatterns with _ | ipm <;> rw [hfp] at h
  · rcases hk : detectIntentByKeywords (pyNormalize u) with _ | ki <;> rw [hk] at h
    · simp only [pure, Except.pure, Except.ok.injEq] at h
      subst h
      show ("search" : String) ∈ schemaIntents
      decide
    · simp only [pure, Except.pure, Except.ok.injEq] at h
      subst h
      have := detectIntent_mem _ _ hk
      simpa [intentKeywords, schemaIntents] using this
  · rcases hext : extractInfoFromMatch ipm.1 ipm.2.2 (pyNormalize u) with e | m <;>
      simp only [hext, exceptBind_err, exceptBind_ok] at h
    · simp at h
    · simp only [pure, Except.pure, Except.ok.injEq] at h
      subst h
      obtain ⟨ps, hmem, _, _⟩ := findPattern_mem _ _ _ hfp
      have : ipm.1 ∈ intentPatterns.map Prod.fst := List.mem_map.mpr ⟨_, hmem, rfl⟩
      simpa [intentPatterns, schemaIntents] using this

theorem endpoints_total : ∀ i ∈ schemaIntents, (lookupStr apiEndpoints i).isSome = true := by
  decide

/-- C10: for every input, the action decided and executed by the pipeline is
`ask_for_info` or `call_api`; `answer_directly` is never produced because
the classifier only returns the six schema intents and each has a
registered endpoint. -/
theorem claim_C10_actionInvariant (u : String) (r : PipelineOutput)
    (h : processInputE u = Except.ok r) :
    r.actionTaken = "ask_for_info" ∨ r.actionTaken = "call_api" := by
  unfold processInputE at h
  rcases hp : parseIntentE u with e | ir <;> rw [hp] at h
  · rw [exceptBind_err] at h; simp at h
  · rw [exceptBind_ok] at h
    simp only [pure, Except.pure, Except.ok.injEq] at h
    subst h
    have hmem := parseIntent_intent_mem u ir hp
    show actionTypeValue (decideAction ir.intent (checkMissingInfo ir.intent ir.extractedInfo)
        ir.extractedInfo).1 = "ask_for_info" ∨
      actionTypeValue (decideAction ir.intent (checkMissingInfo ir.intent ir.extractedInfo)
        ir.extractedInfo).1 = "call_api"
    unfold decideAction
    by_cases hm : checkMissingInfo ir.intent ir.extractedInfo ≠ []
    · rw [if_pos hm]
      exact Or.inl rfl
    · rw [if_neg hm]
      have hsome := endpoints_total ir.intent hmem
      rcases hep : lookupStr apiEndpoints ir.intent with _ | ep
      · rw [hep] at hsome; simp at hsome
      · exact Or.inr rfl

theorem claim_C10_actionInvariant_witness :
    ∃ r, processInputE "" = Except.ok r ∧
      (r.actionTaken = "ask_for_info" ∨ r.actionTaken = "call_api") := by
  have h : ∃ r, processInputE "" = Except.ok r := ⟨_, by with_unfolding_all rfl⟩
  obtain ⟨r, hr⟩ := h
  exact ⟨r, hr, claim_C10_actionInvariant "" r hr⟩

/-! ### C7: keyword phase and default phase -/

/-- Claim-side score of one intent: +1 per keyword occurring as a substring
of the normalized utterance, plus an extra 1/2 when that keyword is also a
standalone whitespace-delimited token. -/
def specScore (u : String) (kws : List String) : ℚ :=
  (kws.map (fun k =>
    if strContains u k then
      1 + (if (pySplitWords u).contains k then (1 : ℚ) / 2 else 0)
    else 0)).sum

/-- Claim-side maximum keyword score over the intent table. -/
def specMaxScore (u : String) : ℚ :=
  (intentKeywords.map (fun p => specScore u p.2)).foldl max 0

theorem scoreFold_eq (u : String) :
    ∀ (kws : List String) (acc : ℚ),
      kws.foldl (fun sc k =>
        if strContains u k then
          if (pySplitWords u).contains k then sc + 1 + 1 / 2 else sc + 1
        else sc) acc = acc + specScore u kws := by
  intro kws
  induction kws with
  | nil => intro acc; simp [specScore]
  | cons k ks ih =>
      intro acc
      rw [List.foldl_cons, ih]
      unfold specScore
      rw [List.map_cons, List.sum_cons]
      by_cases h1 : strContains u k = true
      · by_cases h2 : (pySplitWords u).contains k = true
        · simp only [h1, if_true, h2]
          ring
        · simp only [h1, if_true, h2, Bool.false_eq_true, if_false]
          ring
      · simp only [h1, Bool.false_eq_true, if_false]
        ring

theorem keywordScores_eq (u : String) :
    keywordScores u = intentKeywords.map (fun p => (p.1, specScore u p.2)) := by
  unfold keywordScores
  apply List.map_congr_left
  intro p _
  rw [scoreFold_eq u p.2 0, zero_add]

theorem foldBest_snd : ∀ (rest : List (String × ℚ)) (cur : String × ℚ),
    (foldBest cur rest).2 = (rest.map Prod.snd).foldl max cur.2 := by
  intro rest
  induction rest with
  | nil => intro cur; rfl
  | cons p ps ih =>
      intro cur
      unfold foldBest
      rw [List.map_cons, List.foldl_cons, ih]
      congr 1
      split
      · exact (max_eq_right (le_of_lt (by assumption))).symm
      · exact (max_eq_left (not_lt.mp (by assumption))).symm

theorem le_foldl_max : ∀ (l : List ℚ) (a : ℚ), a ≤ l.foldl max a := by
  intro l
  induction l with
  | nil => intro a; exact le_refl a
  | cons x xs ih =>
      intro a
      rw [List.foldl_cons]
      exact le_trans (le_max_left a x) (ih (max a x))

theorem findq_cons (pred : (String × ℚ) → Bool) (x : String × ℚ) (l : List (String × ℚ)) :
    List.find? pred (x :: l) = (if pred x = true then some x else List.find? pred l) := by
  by_cases h : pred x = true
  · simp [List.find?, h]
  · simp [List.find?, h]

theorem foldBest_find : ∀ (rest : List (String × ℚ)) (cur : String × ℚ),
    List.find? (fun q => q.2 == (foldBest cur rest).2) (cur :: rest) =
      some (foldBest cur rest) := by
  intro rest
  induction rest with
  | nil =>
      intro cur
      simp [List.find?, foldBest]
  | cons p ps ih =>
      intro cur
      by_cases hgt : p.2 > cur.2
      · have hfb : foldBest cur (p :: ps) = foldBest p ps := by
          show foldBest (if p.2 > cur.2 then p else cur) ps = foldBest p ps
          rw [if_pos hgt]
        have hb2 : p.2 ≤ (foldBest p ps).2 := by
          rw [foldBest_snd]; exact le_foldl_max _ _
        have hcur : ¬ cur.2 = (foldBest p ps).2 := by
          intro hce
          exact absurd (lt_of_lt_of_le hgt hb2) (by rw [← hce]; exact lt_irrefl _)
        rw [hfb, findq_cons, if_neg (by simpa using hcur)]
        exact ih p
      · have hfb : foldBest cur (p :: ps) = foldBest cur ps := by
          show foldBest (if p.2 > cur.2 then p else cur) ps = foldBest cur ps
          rw [if_neg hgt]
        have hb := ih cur
        rw [hfb]
        by_cases hc : cur.2 = (foldBest cur ps).2
        · have hcb : foldBest cur ps = cur := by
            have h2 := hb
            rw [findq_cons, if_pos (by simpa using hc)] at h2
            exact (Option.some_inj.mp h2).symm
          rw [findq_cons, if_pos (by simpa using hc), hcb]
        · have hbc : cur.2 ≤ (foldBest cur ps).2 := by
            rw [foldBest_snd]; exact le_foldl_max _ _
          have hple : p.2 ≤ cur.2 := not_lt.mp hgt
          have hp : ¬ p.2 = (foldBest cur ps).2 := by
            intro hpe
            exact hc (le_antisymm hbc (hpe ▸ hple))
          rw [findq_cons, if_neg (by simpa using hc), findq_cons, if_neg (by simpa using hp)]
          have h2 := hb
          rw [findq_cons, if_neg (by simpa using hc)] at h2
          exact h2

theorem specScore_nonneg (u : String) (kws : List String) : 0 ≤ specScore u kws := by
  unfold specScore
  apply List.sum_nonneg
  intro x hx
  obtain ⟨k, _, rfl⟩ := List.mem_map.mp hx
  split
  · split
    · norm_num
    · norm_num
  · norm_num

theorem find_map_scores (u2 : String) (M : ℚ) : ∀ l : List (String × List String),
    (l.map (fun p => (p.1, specScore u2 p.2))).find? (fun q => q.2 == M) =
      (l.find? (fun p => specScore u2 p.2 == M)).map
        (fun p => (p.1, specScore u2 p.2)) := by
  intro l
  induction l with
  | nil => rfl
  | cons p ps ih =>
      by_cases h : (specScore u2 p.2 == M) = true
      · simp [List.find?, h]
      · simp only [List.map_cons, List.find?, h, Bool.false_eq_true, if_false]
        exact ih

theorem findPattern_none (u2 : String)
    (h : ∀ pr ∈ flatPatterns, reSearch pr.2 u2 = none) :
    findPattern u2 intentPatterns = none := by
  have hgen : ∀ tbl : List (String × List RE),
      (∀ pr ∈ tbl.flatMap (fun ip => ip.2.map (fun q => (ip.1, q))), reSearch pr.2 u2 = none) →
      findPattern u2 tbl = none := by
    intro tbl
    induction tbl with
    | nil => intro _; rfl
    | cons ip rest ih =>
        intro h2
        unfold findPattern
        rw [firstRe_none u2 ip.2 (fun q hq => h2 (ip.1, q)
          (by rw [List.flatMap_cons]
              exact List.mem_append_left _ (List.mem_map.mpr ⟨q, hq, rfl⟩)))]
        exact ih (fun pr hpr => h2 pr (by rw [List.flatMap_cons]; exact List.mem_append_right _ hpr))
  exact hgen intentPatterns h

/-- C7: when no pattern matches, the classifier scores every intent by the
keyword rule (+1 per substring occurrence, +0.5 more per standalone token)
and returns the first-declared intent attaining the strictly positive
maximum with confidence 0.7 and method `"keywords"`; if the maximum is not
strictly positive it falls back to intent `"search"`, confidence 0.3,
method `"default"`, with the `query` slot carrying the entire normalized
utterance. -/
theorem claim_C7_keywordPhase (u : String)
    (hnp : ∀ pr ∈ flatPatterns, reSearch pr.2 (pyNormalize u) = none) :
    (0 < specMaxScore (pyNormalize u) →
      ∃ res, parseIntentE u = Except.ok res ∧
        (intentKeywords.find? (fun p =>
            specScore (pyNormalize u) p.2 == specMaxScore (pyNormalize u))).map
          (fun p => p.1) = some res.intent ∧
        res.confidence = 7 / 10 ∧ res.detectionMethod = "keywords") ∧
    (specMaxScore (pyNormalize u) ≤ 0 →
      parseIntentE u = Except.ok
        { intent := "search", confidence := 3 / 10,
          extractedInfo := [("query", Value.str (pyNormalize u))],
          rawInput := pyNormalize u, detectionMethod := "default" }) := by
  have hfpn : findPattern (pyNormalize u) intentPatterns = none := findPattern_none _ hnp
  have hpi : parseIntentE u =
      (match detectIntentByKeywords (pyNormalize u) with
       | some ki =>
           Except.ok (ClassRes.mk ki (7 / 10) (extractInfoByKeywords ki (pyNormalize u))
             (pyNormalize u) "keywords")
       | none =>
           Except.ok (ClassRes.mk "search" (3 / 10) [("query", Value.str (pyNormalize u))]
             (pyNormalize u) "default")) := by
    unfold parseIntentE
    simp only []
    rw [hfpn]
    rcases detectIntentByKeywords (pyNormalize u) with _ | ki
    · rfl
    · rfl
  rcases hsc : keywordScores (pyNormalize u) with _ | ⟨s0, rest⟩
  · exact absurd hsc (by rw [keywordScores_eq]; simp [intentKeywords])
  · have hsnd : s0.2 :: rest.map Prod.snd =
        intentKeywords.map (fun p => specScore (pyNormalize u) p.2) := by
      have h2 := congrArg (List.map Prod.snd) hsc
      rw [keywordScores_eq, List.map_map] at h2
      simpa using h2.symm
    have hs0 : 0 ≤ s0.2 := by
      have hhead : s0.2 ∈ s0.2 :: rest.map Prod.snd := List.mem_cons_self _ _
      rw [hsnd] at hhead
      obtain ⟨q, _, hq2⟩ := List.mem_map.mp hhead
      rw [← hq2]
      exact specScore_nonneg _ _
    have hM : specMaxScore (pyNormalize u) = (foldBest s0 rest).2 := by
      unfold specMaxScore
      rw [← hsnd, List.foldl_cons, max_comm, max_eq_left hs0, foldBest_snd]
    have hdet : detectIntentByKeywords (pyNormalize u) =
        (if (foldBest s0 rest).2 > 0 then some (foldBest s0 rest).1 else none) := by
      unfold detectIntentByKeywords
      rw [hsc]
    constructor
    · intro hpos
      rw [hM] at hpos
      rw [if_pos hpos] at hdet
      refine ⟨_, by rw [hpi, hdet], ?_, rfl, rfl⟩
      have hfind := foldBest_find rest s0
      rw [← hsc, keywordScores_eq, find_map_scores _ ((foldBest s0 rest).2)] at hfind
      rcases hfd : intentKeywords.find? (fun p =>
          specScore (pyNormalize u) p.2 == (foldBest s0 rest).2) with _ | q
      · rw [hfd] at hfind; simp at hfind
      · rw [hfd] at hfind
        have hq : (q.1, specScore (pyNormalize u) q.2) = foldBest s0 rest :=
          Option.some.inj hfind
        rw [hM, hfd]
        exact congrArg some (congrArg Prod.fst hq)
    · intro hle
      rw [hM] at hle
      rw [if_neg (not_lt.mpr hle)] at hdet
      rw [hpi, hdet]

theorem claim_C7_keywordPhase_witness :
    ∃ res, parseIntentE "plus" = Except.ok res ∧
      (intentKeywords.find? (fun p =>
          specScore (pyNormalize "plus") p.2 == specMaxScore (pyNormalize "plus"))).map
        (fun p => p.1) = some res.intent ∧
      res.confidence = 7 / 10 ∧ res.detectionMethod = "keywords" :=
  (claim_C7_keywordPhase "plus" (by decide)).1 (by with_unfolding_all decide)

end IntentControllerModel
